import Mathlib

/-!
Stack_Analyser: collector orchestration in `main.cpp`.

A shallow embedding of `eBPF_Supermarket/Stack_Analyser/src/main.cpp` (the load
loop, the child handshake, the trigger gate, the scheduling loop and the
exit hook `endCollect`) and of the lifecycle macros of
`include/bpf_wapper/eBPFStackCollector.h`.

The program is sequential and effectful; every externally visible call it
makes is recorded as an event of type `Ev`, in program order.  The results of
calls into the environment (collector virtual methods, `fork`, `poll`,
`kill`, ...) are read from an `Env`.

The macros `CHECK_ERR` and `CHECK_ERR_EXIT` come from `sa_user.h`.
`CHECK_ERR(cond, ...)` is an `if (cond)` statement that reports the error and
makes the enclosing function return -1 (see the note on `StackProgLoadOpen`
and the `else CHECK_ERR` in the child branch of `main`); `CHECK_ERR_EXIT`
ends the process.  The flags `POLLPRI` and `POLLERR` have their Linux values.
-/

namespace StackAnalyser

/-- A `StackCollector *`: collectors are identified by their address. -/
abbrev Collector := Nat

/-- The externally visible calls made by `main` and `endCollect`. -/
inductive Ev where
  /-- Call `(*Item)->load()` together with the value it returned. -/
  | load (c : Collector) (res : Int)
  /-- Call `Item->unload()`. -/
  | unload (c : Collector)
  /-- Call `Item->attach()` together with the value it returned. -/
  | attach (c : Collector) (res : Int)
  /-- Call `Item->detach()`. -/
  | detach (c : Collector)
  /-- Output `std::cout << std::string(*Item)`. -/
  | render (c : Collector)
  /-- Call `sleep(MainConfig::delay)`. -/
  | sleep (d : Nat)
  /-- Call `fork()`. -/
  | fork
  /-- The child's `read(child_exec_event_fd, ...)`. -/
  | childRead
  /-- The child's `execl` of the command. -/
  | exec
  /-- The parent's `write(child_exec_event_fd, ...)`: the readiness event. -/
  | wakeChild
  /-- Registration `atexit(endCollect)`. -/
  | atexit
  /-- The call `open(path, O_RDWR | O_NONBLOCK)` on the trigger path. -/
  | openTrigger
  /-- The call `write(fds.fd, trig, ...)` arming the trigger. -/
  | armTrigger
  /-- The call `poll(&fds, 1, -1)`. -/
  | poll
  /-- The message printed when `fds.revents & POLLPRI` holds. -/
  | triggered
  /-- The liveness probe `kill(MainConfig::target_pid, 0)`. -/
  | probe (pid : Int)
  /-- The call `signal(SIGINT, SIG_IGN)`, first statement of `endCollect`. -/
  | ignoreSigint
  /-- The call `kill(MainConfig::target_pid, SIGTERM)`. -/
  | sigterm (pid : Int)
  deriving DecidableEq, Repr

/-- Results of the calls `main` makes into its environment. -/
structure Env where
  /-- Value of `eventfd(0, EFD_CLOEXEC)`. -/
  eventfd : Int
  /-- Value of `fork()`. -/
  forkRes : Int
  /-- Value of the child's `read`. -/
  readBytes : Int
  /-- Whether the child's `execl` fails (it returns only then). -/
  execFails : Bool
  /-- Value of `load()` of each collector. -/
  loadRes : Collector → Int
  /-- Value of `attach()` of each collector in window `k`. -/
  attachRes : Nat → Collector → Int
  /-- Value of `open` on the trigger path. -/
  openFd : Int
  /-- Value of `write` on the trigger descriptor. -/
  armRes : Int
  /-- Value of the poll of window `k`: its return value and `fds.revents`. -/
  pollRes : Nat → Int × Nat
  /-- Whether `kill(target_pid, 0)` returns 0 at the `k`-th loop test. -/
  alive : Nat → Bool

/-- The namespace `MainConfig` of `main.cpp`. -/
structure MainConfig where
  run_time : Int := 2147483647
  delay : Nat := 5
  command : String := ""
  target_pid : Int := -1
  trigger : String := ""
  trig_event : String := ""

/-! The load loop (`main.cpp`, lines 255-268). -/

/-- The loop `for (Item = begin(); Item != end();)` over `StackCollectorList`.
The iterator is the index `i`; `erase(Item)` removes the entry at `i` and
leaves the iterator on the entry that followed it.  The iterator never passes
`end()`, so the test `Item != end()` is `i < reg.length`. -/
def loadLoop (env : Env) (reg : List Collector) (i : Nat) : List Collector × List Ev :=
  if h : i < reg.length then
    let c := reg.get ⟨i, h⟩
    let r := env.loadRes c
    if r ≠ 0 then
      -- err: (*Item)->unload(); Item = StackCollectorList.erase(Item);
      let rest := loadLoop env (reg.eraseIdx i) i
      (rest.1, Ev.load c r :: Ev.unload c :: rest.2)
    else
      -- Item++; continue;
      let rest := loadLoop env reg (i + 1)
      (rest.1, Ev.load c r :: rest.2)
  else
    (reg, [])
termination_by reg.length - i
decreasing_by
  · simp only [List.length_eraseIdx, h, if_true]; omega
  · omega

/-! Integer conversions of `run_time -= delay` (`int` and `unsigned`, 32 bits). -/

/-- Conversion of an `int` to `unsigned`: reduction modulo `2^32`. -/
def toUnsigned (x : Int) : Int := x % 4294967296

/-- Conversion of an `unsigned` value back to `int` (two's complement). -/
def toSigned (u : Int) : Int := if u < 2147483648 then u else u - 4294967296

/-- The update `MainConfig::run_time -= MainConfig::delay`: `run_time` is
`int`, `delay` is `unsigned`, so the subtraction is done in `unsigned`
arithmetic and the result converted back to `int`. -/
def subDelay (run_time : Int) (delay : Nat) : Int :=
  toSigned (toUnsigned (toUnsigned run_time - toUnsigned (delay : Int)))

/-! The scheduling loop (`main.cpp`, lines 296-313). -/

/-- Flag `POLLPRI` of `<poll.h>`. -/
def POLLPRI : Nat := 2

/-- Flag `POLLERR` of `<poll.h>`. -/
def POLLERR : Nat := 8

/-- The inner loop `for (auto Item : StackCollectorList)` of window `k`:
attach, sleep, detach and print, one collector after the other.  The value
returned by `attach()` is discarded by `main`; it is kept in the event. -/
def window (env : Env) (k : Nat) (delay : Nat) : List Collector → List Ev
  | [] => []
  | c :: cs =>
    Ev.attach c (env.attachRes k c) :: Ev.sleep delay :: Ev.detach c :: Ev.render c ::
      window env k delay cs

/-- The block guarded by `if (fds.fd >= 0)` in window `k`.  The first
component is `true` when one of the two `CHECK_ERR` makes `main` return -1. -/
def gate (env : Env) (fd : Int) (k : Nat) : Bool × List Ev :=
  if fd ≥ 0 then
    if (env.pollRes k).1 < 0 then (true, [Ev.poll])
    else if (env.pollRes k).2 &&& POLLERR ≠ 0 then (true, [Ev.poll])
    else if (env.pollRes k).2 &&& POLLPRI ≠ 0 then (false, [Ev.poll, Ev.triggered])
    else (false, [Ev.poll])
  else (false, [])

/-- How far a process got. -/
inductive Outcome where
  /-- Function `main` returned this value. -/
  | returned (status : Int)
  /-- The child was replaced by the command (`execl` succeeded). -/
  | execed
  /-- The child left through `CHECK_ERR_EXIT` (`execl` failed). -/
  | childExit
  /-- The scheduling loop was still running when the fuel ran out. -/
  | running
  deriving DecidableEq, Repr

/-- Result of running (a part of) `main`. -/
structure Run where
  /-- How the run ended. -/
  outcome : Outcome
  /-- Value of `MainConfig::run_time` at the end. -/
  run_time : Int
  /-- Number of completed bodies of the scheduling loop. -/
  windows : Nat
  /-- The calls made, in order. -/
  trace : List Ev
  deriving DecidableEq, Repr

/-- The loop
`for (; run_time > 0 && (target_pid < 0 || !kill(target_pid, 0)); run_time -= delay)`
started at its `k`-th test with remaining time `rt`.  The loop need not
terminate (`delay` may be 0), hence the fuel: one unit per loop test. -/
def schedLoop (env : Env) (delay : Nat) (target_pid fd : Int) (reg : List Collector) :
    Nat → Int → Nat → Run
  | 0, rt, _ => ⟨Outcome.running, rt, 0, []⟩
  | fuel + 1, rt, k =>
    if rt > 0 then
      if target_pid < 0 then
        if (gate env fd k).1 then
          ⟨Outcome.returned (-1), rt, 0, (gate env fd k).2⟩
        else
          let r := schedLoop env delay target_pid fd reg fuel (subDelay rt delay) (k + 1)
          ⟨r.outcome, r.run_time, r.windows + 1,
            (gate env fd k).2 ++ window env k delay reg ++ r.trace⟩
      else if env.alive k then
        if (gate env fd k).1 then
          ⟨Outcome.returned (-1), rt, 0, Ev.probe target_pid :: (gate env fd k).2⟩
        else
          let r := schedLoop env delay target_pid fd reg fuel (subDelay rt delay) (k + 1)
          ⟨r.outcome, r.run_time, r.windows + 1,
            Ev.probe target_pid :: (gate env fd k).2 ++ window env k delay reg ++ r.trace⟩
      else
        ⟨Outcome.returned 0, rt, 0, [Ev.probe target_pid]⟩
    else
      ⟨Outcome.returned 0, rt, 0, []⟩

/-! The exit hook `endCollect` (`main.cpp`, lines 46-62). -/

/-- The loop `for (auto Item : StackCollectorList)` of `endCollect`. -/
def endCollectItems (run_time : Int) : List Collector → List Ev
  | [] => []
  | c :: cs =>
    (if run_time > 0 then [Ev.render c] else []) ++
      Ev.detach c :: Ev.unload c :: endCollectItems run_time cs

/-- The function `endCollect`, reading the globals `MainConfig` and
`StackCollectorList`. -/
def endCollect (cfg : MainConfig) (reg : List Collector) : List Ev :=
  Ev.ignoreSigint :: endCollectItems cfg.run_time reg ++
    (if cfg.command.length ≠ 0 then [Ev.sigterm cfg.target_pid] else [])

/-! From `atexit(endCollect)` to the end of `main` (lines 282-314). -/

/-- The trigger set-up of lines 284-295: the descriptor `fds.fd` (`none`
when a `CHECK_ERR` makes `main` return -1) and the calls made. -/
def armTrigger (env : Env) (cfg : MainConfig) : Option Int × List Ev :=
  if cfg.trigger ≠ "" ∧ cfg.trig_event ≠ "" then
    if env.openFd < 0 then (none, [Ev.openTrigger])
    else if env.armRes < 0 then (none, [Ev.openTrigger, Ev.armTrigger])
    else (some env.openFd, [Ev.openTrigger, Ev.armTrigger])
  else (some (-1), [])

/-- Lines 282-314 of `main` on the registry `reg`, followed, when `main`
returns, by the handlers registered with `atexit`: `endCollect`, once. -/
def schedule (env : Env) (cfg : MainConfig) (reg : List Collector) (fuel : Nat) : Run :=
  match armTrigger env cfg with
  | (none, evs) =>
    ⟨Outcome.returned (-1), cfg.run_time, 0, Ev.atexit :: evs ++ endCollect cfg reg⟩
  | (some fd, evs) =>
    let r := schedLoop env cfg.delay cfg.target_pid fd reg fuel cfg.run_time 0
    match r.outcome with
    | Outcome.returned st =>
      ⟨Outcome.returned st, r.run_time, r.windows,
        Ev.atexit :: evs ++ r.trace ++ endCollect { cfg with run_time := r.run_time } reg⟩
    | o => ⟨o, r.run_time, r.windows, Ev.atexit :: evs ++ r.trace⟩

/-! Function `main` from the registry check of line 218 on. -/

/-- Lines 255-314: the load loop, the empty-registry check, the readiness
event and the scheduling part, with `MainConfig::target_pid` already set. -/
def loadAndRun (env : Env) (cfg : MainConfig) (reg0 : List Collector) (fuel : Nat) : Run :=
  let l := loadLoop env reg0 0
  if l.1.length = 0 then
    ⟨Outcome.returned (-1), cfg.run_time, 0, l.2⟩
  else
    let wake := if cfg.command.length ≠ 0 then [Ev.wakeChild] else []
    let r := schedule env cfg l.1 fuel
    ⟨r.outcome, r.run_time, r.windows, l.2 ++ wake ++ r.trace⟩

/-- Function `main` after command-line parsing, `reg0` being the
`StackCollectorList` built by the parser. -/
def main (env : Env) (cfg : MainConfig) (reg0 : List Collector) (fuel : Nat) : Run :=
  if reg0.length = 0 then ⟨Outcome.returned (-1), cfg.run_time, 0, []⟩
  else if env.eventfd < 0 then ⟨Outcome.returned (-1), cfg.run_time, 0, []⟩
  else if cfg.command.length ≠ 0 then
    -- MainConfig::target_pid = fork(); switch (MainConfig::target_pid)
    if env.forkRes = -1 then ⟨Outcome.returned (-1), cfg.run_time, 0, [Ev.fork]⟩
    else if env.forkRes = 0 then
      if env.readBytes < 0 then
        ⟨Outcome.returned (-1), cfg.run_time, 0, [Ev.fork, Ev.childRead]⟩
      else if env.readBytes ≠ 8 then
        ⟨Outcome.returned (-1), cfg.run_time, 0, [Ev.fork, Ev.childRead]⟩
      else if env.execFails then
        ⟨Outcome.childExit, cfg.run_time, 0, [Ev.fork, Ev.childRead, Ev.exec]⟩
      else ⟨Outcome.execed, cfg.run_time, 0, [Ev.fork, Ev.childRead, Ev.exec]⟩
    else
      let r := loadAndRun env { cfg with target_pid := env.forkRes } reg0 fuel
      ⟨r.outcome, r.run_time, r.windows, Ev.fork :: r.trace⟩
  else loadAndRun env cfg reg0 fuel

/-! Observations on traces. -/

/-- The calls of the load loop on the entries `cs`: one `load` per entry,
followed by `unload` of that entry when the load failed. -/
def loadCalls (env : Env) : List Collector → List Ev
  | [] => []
  | c :: cs =>
    if env.loadRes c ≠ 0 then Ev.load c (env.loadRes c) :: Ev.unload c :: loadCalls env cs
    else Ev.load c (env.loadRes c) :: loadCalls env cs

/-- Recogniser of `load` events. -/
def Ev.isLoad : Ev → Bool
  | Ev.load _ _ => true
  | _ => false

/-- Recogniser of `attach` events. -/
def Ev.isAttach : Ev → Bool
  | Ev.attach _ _ => true
  | _ => false

/-- Recogniser of `sleep` events. -/
def Ev.isSleep : Ev → Bool
  | Ev.sleep _ => true
  | _ => false

/-- Recogniser of `render` events. -/
def Ev.isRender : Ev → Bool
  | Ev.render _ => true
  | _ => false

/-- Recogniser of liveness probes. -/
def Ev.isProbe : Ev → Bool
  | Ev.probe _ => true
  | _ => false

/-- Recogniser of the calls of the shutdown sequence: `detach`, `unload` and
the delivery of `SIGTERM`. -/
def Ev.isRelease : Ev → Bool
  | Ev.detach _ => true
  | Ev.unload _ => true
  | Ev.sigterm _ => true
  | _ => false

/-- Recogniser of `load` and `attach` events. -/
def Ev.isLoadOrAttach : Ev → Bool
  | Ev.load _ _ => true
  | Ev.attach _ _ => true
  | _ => false

/-- Recogniser of `render` and `detach` events. -/
def Ev.isRenderOrDetach : Ev → Bool
  | Ev.render _ => true
  | Ev.detach _ => true
  | _ => false

/-- Recogniser of `load` events and of the readiness event. -/
def Ev.isLoadOrWake : Ev → Bool
  | Ev.load _ _ => true
  | Ev.wakeChild => true
  | _ => false

/-- Recogniser of `load` and `unload` events. -/
def Ev.isLoadOrUnload : Ev → Bool
  | Ev.load _ _ => true
  | Ev.unload _ => true
  | _ => false

/-- The collector an event is a call on, if any. -/
def Ev.collector? : Ev → Option Collector
  | Ev.load c _ => some c
  | Ev.unload c => some c
  | Ev.attach c _ => some c
  | Ev.detach c => some c
  | Ev.render c => some c
  | _ => none

/-! Iterations of the scheduling loop. -/

/-- Value of `MainConfig::run_time` after `n` executions of the update
`run_time -= delay`. -/
def runTimeAfter (delay : Nat) : Nat → Int → Int
  | 0, rt => rt
  | n + 1, rt => runTimeAfter delay n (subDelay rt delay)

/-- The calls of the loop test at a point where `run_time > 0`: the probe
`kill(target_pid, 0)` is evaluated only when `target_pid < 0` is false. -/
def probeCalls (target_pid : Int) : List Ev :=
  if target_pid < 0 then [] else [Ev.probe target_pid]

/-- The calls of `n` consecutive complete loop iterations, the first one being
window `k`: per iteration the loop test, the trigger block and the inner loop. -/
def windowsTrace (env : Env) (delay : Nat) (target_pid fd : Int) (reg : List Collector) :
    Nat → Nat → List Ev
  | 0, _ => []
  | n + 1, k =>
    probeCalls target_pid ++ (gate env fd k).2 ++ window env k delay reg ++
      windowsTrace env delay target_pid fd reg n (k + 1)

/-- The window as the specification words it: every collector is attached,
then one sleep, then every collector is detached and rendered. -/
def specWindow (env : Env) (k : Nat) (delay : Nat) (reg : List Collector) : List Ev :=
  reg.map (fun c => Ev.attach c (env.attachRes k c)) ++ [Ev.sleep delay] ++
    reg.flatMap (fun c => [Ev.detach c, Ev.render c])

/-! The lifecycle macros of `include/bpf_wapper/eBPFStackCollector.h`
(`StackProgLoadOpen`, `defaultAttach`, `defaultDetach`, `defaultUnload`).
The skeleton functions `open`, `load`, `attach`, `detach` and `destroy` are
the backend; every call on them is recorded. -/

/-- A skeleton pointer `struct func##_bpf *` returned by a successful `open`. -/
abbrev Handle := Nat

/-- The calls a collector makes on the backend. -/
inductive SkelCall where
  /-- Call `skel->open(NULL)` with its result (`none` is `NULL`). -/
  | openSkel (res : Option Handle)
  /-- Call `skel->load(skel)` with its result. -/
  | load (h : Handle) (err : Int)
  /-- Call `skel->attach(skel)` with its result. -/
  | attach (h : Handle) (err : Int)
  /-- Call `skel->detach(skel)`. -/
  | detach (h : Handle)
  /-- Call `skel->destroy(skel)`. -/
  | destroy (h : Handle)
  deriving DecidableEq, Repr

/-- The members of a collector the macros read and write: `skel` (declared
`NULL` by `declareEBPF`), `obj` (initially `NULL`) and `err` (initially 0). -/
structure Members where
  skel : Option Handle := none
  obj : Option Handle := none
  err : Int := 0
  deriving DecidableEq, Repr

/-- A collector together with the backend it talks to. -/
structure World where
  /-- The members of the collector. -/
  self : Members := {}
  /-- The pointer the next successful `open` returns: every successful `open`
  yields a skeleton distinct from all earlier ones. -/
  fresh : Handle := 0
  /-- Whether the process has passed a null skeleton to `skel->attach`, which
  dereferences it. -/
  crashed : Bool := false
  /-- The backend calls made so far, in order. -/
  calls : List SkelCall := []
  deriving DecidableEq, Repr

/-- The macro `StackProgLoadOpen`; `openOk` tells whether `open` succeeds
and `loadErr` is the value of `skel->load(skel)`.  The second component is
`some (-1)` when a `CHECK_ERR` makes the enclosing `load()` return -1. -/
def StackProgLoadOpen (openOk : Bool) (loadErr : Int) (w : World) : World × Option Int :=
  if openOk then
    -- skel = skel->open(NULL); err = skel->load(skel);
    let w1 : World :=
      { w with
        self := { w.self with skel := some w.fresh, err := loadErr }
        fresh := w.fresh + 1
        calls := w.calls ++ [SkelCall.openSkel (some w.fresh), SkelCall.load w.fresh loadErr] }
    if loadErr ≠ 0 then (w1, some (-1))
    else
      -- obj = skel->obj;
      ({ w1 with self := { w1.self with obj := some w.fresh } }, none)
  else
    ({ w with
        self := { w.self with skel := none }
        calls := w.calls ++ [SkelCall.openSkel none] }, some (-1))

/-- The macro `defaultAttach`; `attachErr` is the value of
`skel->attach(skel)`.  The macro does not test `skel`: with a null `skel` the
backend dereferences a null pointer, and the process is marked as crashed. -/
def defaultAttach (attachErr : Int) (w : World) : World × Option Int :=
  match w.self.skel with
  | none => ({ w with crashed := true }, none)
  | some h =>
    ({ w with
        self := { w.self with err := attachErr }
        calls := w.calls ++ [SkelCall.attach h attachErr] },
      if attachErr ≠ 0 then some (-1) else none)

/-- The macro `defaultDetach`. -/
def defaultDetach (w : World) : World :=
  match w.self.skel with
  | some h => { w with calls := w.calls ++ [SkelCall.detach h] }
  | none => w

/-- The macro `defaultUnload`. -/
def defaultUnload (w : World) : World :=
  match w.self.skel with
  | some h =>
    { w with self := { w.self with skel := none }, calls := w.calls ++ [SkelCall.destroy h] }
  | none => { w with self := { w.self with skel := none } }

/-- A call of one of the four virtual methods of a collector whose bodies
are the macros. -/
inductive Call where
  /-- Method `load()` with the results of `open` and of `skel->load`. -/
  | load (openOk : Bool) (loadErr : Int)
  /-- Method `attach()` with the result of `skel->attach`. -/
  | attach (attachErr : Int)
  /-- Method `detach()`. -/
  | detach
  /-- Method `unload()`. -/
  | unload
  deriving DecidableEq, Repr

/-- One method call; nothing happens any more once the process has crashed. -/
def step (w : World) (c : Call) : World :=
  if w.crashed then w
  else
    match c with
    | Call.load openOk loadErr => (StackProgLoadOpen openOk loadErr w).1
    | Call.attach attachErr => (defaultAttach attachErr w).1
    | Call.detach => defaultDetach w
    | Call.unload => defaultUnload w

/-- A sequence of method calls on a collector. -/
def runCalls (w : World) (cs : List Call) : World :=
  cs.foldl step w

/-- The freshly constructed collector: `skel = NULL`, `obj = NULL`,
`err = 0`, no backend call made. -/
def initWorld : World := {}

/-- The invariant of the backend log: a skeleton is opened at most once and
only below the `fresh` counter, is destroyed no more often than it was
opened, and the skeleton the collector holds is open and not destroyed. -/
def LogInv (w : World) : Prop :=
  (∀ h, w.calls.count (SkelCall.openSkel (some h)) ≤ 1) ∧
  (∀ h, w.fresh ≤ h → w.calls.count (SkelCall.openSkel (some h)) = 0) ∧
  (∀ h, w.calls.count (SkelCall.destroy h) ≤ w.calls.count (SkelCall.openSkel (some h))) ∧
  (∀ h, w.self.skel = some h →
    w.calls.count (SkelCall.destroy h) = 0 ∧ w.calls.count (SkelCall.openSkel (some h)) = 1)

/-! Sample environments and configurations. -/

/-- An environment in which every call succeeds: the target stays alive and
every poll reports the trigger (`POLLPRI`). -/
def envOk : Env where
  eventfd := 3
  forkRes := 100
  readBytes := 8
  execFails := false
  loadRes := fun _ => 0
  attachRes := fun _ _ => 0
  openFd := 4
  armRes := 1
  pollRes := fun _ => (1, 2)
  alive := fun _ => true

/-- An environment whose trigger fires in window 0 and whose control path
reports `POLLERR` from window 1 on. -/
def envPollErr : Env :=
  { envOk with pollRes := fun k => if k = 0 then (1, 2) else (1, 8) }

/-- An environment whose control path reports only `POLLHUP` (16): neither
`POLLPRI` nor `POLLERR`. -/
def envPollHup : Env :=
  { envOk with pollRes := fun _ => (1, 16) }

/-- An environment whose target is alive at the first loop test and gone from
the second one on. -/
def envTargetDies : Env :=
  { envOk with alive := fun k => decide (k < 1) }

/-- An environment in which `load()` fails on every collector. -/
def envLoadFail : Env :=
  { envOk with loadRes := fun _ => -1 }

/-- An environment in which `attach()` of collector 1 fails in window 0. -/
def envAttachFail : Env :=
  { envOk with attachRes := fun k c => if k = 0 ∧ c = 1 then -1 else 0 }

/-- A configuration with a trigger: 20 seconds of budget, windows of 5. -/
def cfgTrigger : MainConfig :=
  { run_time := 20, trigger := "/proc/pressure/cpu", trig_event := "some 150000 1000000" }

/-- A configuration that spawns a command: 10 seconds of budget, windows of 5. -/
def cfgCommand : MainConfig :=
  { run_time := 10, command := "ls" }

end StackAnalyser

/-!
The ION latency histogram of
`eBPF_Supermarket/mem_watcher/page_fault/ion/ion_monitor.bpf.c`.

The two hash maps are functions from keys to optional values.  Map
`count_map` has room for 8192 entries and this program writes at most the six
keys 0 to 5 into it, so its insertions are taken to succeed.
-/

namespace IonMonitor

/-- The macro `INTERVAL_MAX`, `6U`. -/
def INTERVAL_MAX : Nat := 6

/-- The maps `count_map` (key `unsigned`, value `u64`) and `time_map` (key
`u32`, value `u64`). -/
structure Maps where
  count_map : Nat → Option Nat
  time_map : Nat → Option Nat

/-- Lines 43 to 49 of `bpf_prog2`: `tm -= *tsp` in `u64`, the quotient by
`10000000` converted to `unsigned`, and the clamp to `INTERVAL_MAX - 1`. -/
def bucketKey (now ts : Nat) : Nat :=
  -- tm -= *tsp;
  let tm := (now + (18446744073709551616 - ts % 18446744073709551616)) % 18446744073709551616
  -- unsigned key = tm / 10000000;
  let key := (tm / 10000000) % 4294967296
  -- if (key > INTERVAL_MAX - 1) key = INTERVAL_MAX - 1;
  if key > INTERVAL_MAX - 1 then INTERVAL_MAX - 1 else key

/-- Lines 50 to 56 of `bpf_prog2`: the new value of `count_map` at `key`
(`*value += 1` in `u64`, or the initial value 1). -/
def bumped (count_map : Nat → Option Nat) (key : Nat) : Nat :=
  match count_map key with
  | some value => (value + 1) % 18446744073709551616
  | none => 1

/-- The program `bpf_prog2` run by the process `pid` at time `now`
(`bpf_ktime_get_ns()`): its return value and the maps afterwards. -/
def bpf_prog2 (pid now : Nat) (s : Maps) : Int × Maps :=
  match s.time_map pid with
  | none => (-1, s)
  | some ts =>
    (0,
      { count_map := fun k =>
          if k = bucketKey now ts then some (bumped s.count_map (bucketKey now ts))
          else s.count_map k
        time_map := fun p => if p = pid then none else s.time_map p })

end IonMonitor

namespace StackAnalyser

/-! Theorems: the load loop. -/

/-- The load loop started at index `i` keeps the entries before `i`, filters
the entries from `i` on, and makes the calls `loadCalls` on those. -/
theorem loadLoop_eq (env : Env) (n : Nat) : ∀ (reg : List Collector) (i : Nat),
    reg.length - i = n →
    loadLoop env reg i =
      (reg.take i ++ (reg.drop i).filter (fun c => decide (env.loadRes c = 0)),
        loadCalls env (reg.drop i)) := by
  induction n using Nat.strong_induction_on with
  | _ n ih =>
    intro reg i hn
    unfold loadLoop
    by_cases h : i < reg.length
    · have hd : reg.drop i = reg[i] :: reg.drop (i + 1) := List.drop_eq_getElem_cons h
      simp only [h, dite_true, List.get_eq_getElem]
      by_cases hr : env.loadRes reg[i] = 0
      · have := ih (reg.length - (i + 1)) (by omega) reg (i + 1) rfl
        simp only [hr, ne_eq, not_true_eq_false, if_false, this, hd, loadCalls,
          List.filter_cons, decide_True, if_true]
        rw [← List.take_concat_get' reg i h, List.append_assoc]
        rfl
      · have hlen : (reg.eraseIdx i).length = reg.length - 1 := by
          simp [List.length_eraseIdx, h]
        have := ih ((reg.eraseIdx i).length - i) (by omega) (reg.eraseIdx i) i rfl
        have ht : (reg.eraseIdx i).take i = reg.take i := by
          rw [List.eraseIdx_eq_take_drop_succ]
          rw [List.take_append_of_le_length (by simp; omega)]
          simp
        have hdr : (reg.eraseIdx i).drop i = reg.drop (i + 1) := by
          rw [List.eraseIdx_eq_take_drop_succ]
          rw [List.drop_append_of_le_length (by simp; omega)]
          simp [List.drop_take]
        simp only [ne_eq, hr, not_false_eq_true, if_true, this, ht, hdr, hd, loadCalls,
          List.filter_cons, decide_False]
        simp
    · have hd : reg.drop i = [] := List.drop_eq_nil_of_le (by omega)
      have ht : reg.take i = reg := List.take_of_length_le (by omega)
      simp [h, hd, ht, loadCalls]

/-- The load loop from the first entry. -/
theorem loadLoop_zero (env : Env) (reg : List Collector) :
    loadLoop env reg 0 =
      (reg.filter (fun c => decide (env.loadRes c = 0)), loadCalls env reg) := by
  have h := loadLoop_eq env (reg.length - 0) reg 0 rfl
  simpa using h

/-- The `load` events among the calls of the load loop. -/
theorem loadCalls_filter_isLoad (env : Env) (cs : List Collector) :
    (loadCalls env cs).filter Ev.isLoad = cs.map (fun c => Ev.load c (env.loadRes c)) := by
  induction cs with
  | nil => rfl
  | cons c cs ih =>
    by_cases hr : env.loadRes c = 0 <;> simp [loadCalls, hr, Ev.isLoad, ih]

/-- Claim C1: after the load loop the registry is the sub-sequence of the
initial registry made of exactly the collectors whose `load()` returned 0, in
their original order; `load()` is called exactly once on every initial
collector, in order; and the registry does not grow. -/
theorem registry_eviction (env : Env) (reg : List Collector) :
    (loadLoop env reg 0).1 = reg.filter (fun c => decide (env.loadRes c = 0)) ∧
    (loadLoop env reg 0).1.Sublist reg ∧
    (loadLoop env reg 0).2.filter Ev.isLoad = reg.map (fun c => Ev.load c (env.loadRes c)) ∧
    (loadLoop env reg 0).1.length ≤ reg.length := by
  rw [loadLoop_zero]
  exact ⟨rfl, List.filter_sublist _, loadCalls_filter_isLoad env reg,
    List.length_filter_le _ _⟩

/-! Theorems: the scheduling loop. -/

/-- The update `run_time -= delay` is the exact subtraction when `run_time`
is a non-negative `int` and `delay` is at most `run_time + 2^31`. -/
theorem subDelay_eq (rt : Int) (d : Nat) (h0 : 0 ≤ rt) (h1 : rt < 2147483648)
    (hd : (d : Int) ≤ rt + 2147483648) : subDelay rt d = rt - d := by
  unfold subDelay toSigned toUnsigned
  split <;> omega

/-- Without a trigger descriptor the trigger block is skipped. -/
theorem gate_of_neg (env : Env) (fd : Int) (k : Nat) (h : fd < 0) :
    gate env fd k = (false, []) := by
  unfold gate
  simp [not_le.mpr h]

/-- Without a configured trigger the descriptor stays `-1`. -/
theorem armTrigger_absent (env : Env) (cfg : MainConfig)
    (h : cfg.trigger = "" ∨ cfg.trig_event = "") : armTrigger env cfg = (some (-1), []) := by
  unfold armTrigger
  rcases h with h | h <;> simp [h]

/-- One complete iteration of the scheduling loop. -/
theorem schedLoop_step (env : Env) (d : Nat) (tp fd : Int) (reg : List Collector)
    (fuel : Nat) (rt : Int) (k : Nat) (hrt : 0 < rt) (hlive : tp < 0 ∨ env.alive k = true)
    (hgate : (gate env fd k).1 = false) :
    schedLoop env d tp fd reg (fuel + 1) rt k =
      ⟨(schedLoop env d tp fd reg fuel (subDelay rt d) (k + 1)).outcome,
        (schedLoop env d tp fd reg fuel (subDelay rt d) (k + 1)).run_time,
        (schedLoop env d tp fd reg fuel (subDelay rt d) (k + 1)).windows + 1,
        probeCalls tp ++ (gate env fd k).2 ++ window env k d reg ++
          (schedLoop env d tp fd reg fuel (subDelay rt d) (k + 1)).trace⟩ := by
  by_cases htp : tp < 0
  · simp [schedLoop, hrt, htp, hgate, probeCalls]
  · have ha : env.alive k = true := by
      rcases hlive with h | h
      · exact absurd h htp
      · exact h
    simp [schedLoop, hrt, htp, hgate, probeCalls, ha]

/-- The loop runs `n` complete iterations when `n` consecutive loop tests and
trigger blocks let it through. -/
theorem schedLoop_iterations (env : Env) (d : Nat) (tp fd : Int) (reg : List Collector)
    (fuel : Nat) : ∀ (n : Nat) (rt : Int) (k : Nat),
    (∀ j, j < n → 0 < runTimeAfter d j rt ∧ (tp < 0 ∨ env.alive (k + j) = true) ∧
      (gate env fd (k + j)).1 = false) →
    schedLoop env d tp fd reg (fuel + n) rt k =
      ⟨(schedLoop env d tp fd reg fuel (runTimeAfter d n rt) (k + n)).outcome,
        (schedLoop env d tp fd reg fuel (runTimeAfter d n rt) (k + n)).run_time,
        (schedLoop env d tp fd reg fuel (runTimeAfter d n rt) (k + n)).windows + n,
        windowsTrace env d tp fd reg n k ++
          (schedLoop env d tp fd reg fuel (runTimeAfter d n rt) (k + n)).trace⟩ := by
  intro n
  induction n with
  | zero => intro rt k _; simp [runTimeAfter, windowsTrace]
  | succ n ih =>
    intro rt k h
    have h0 := h 0 (Nat.succ_pos n)
    simp only [runTimeAfter, Nat.add_zero] at h0
    have hstep := schedLoop_step env d tp fd reg (fuel + n) rt k h0.1 h0.2.1 h0.2.2
    have hrest := ih (subDelay rt d) (k + 1) (by
      intro j hj
      have := h (j + 1) (Nat.succ_lt_succ hj)
      simpa [runTimeAfter, Nat.add_assoc, Nat.add_comm 1 j] using this)
    rw [show fuel + (n + 1) = fuel + n + 1 from rfl, hstep, hrest]
    simp [runTimeAfter, windowsTrace, Nat.add_assoc, Nat.add_comm 1 n]

/-- The inner loop handles the collectors one after the other. -/
theorem window_eq_flatMap (env : Env) (k d : Nat) (reg : List Collector) :
    window env k d reg =
      reg.flatMap (fun c =>
        [Ev.attach c (env.attachRes k c), Ev.sleep d, Ev.detach c, Ev.render c]) := by
  induction reg with
  | nil => rfl
  | cons c cs ih => simp [window, ih]

/-- The `attach` calls of one window. -/
theorem window_filter_isAttach (env : Env) (k d : Nat) (reg : List Collector) :
    (window env k d reg).filter Ev.isAttach =
      reg.map (fun c => Ev.attach c (env.attachRes k c)) := by
  induction reg with
  | nil => rfl
  | cons c cs ih => simp [window, ih, Ev.isAttach]

/-- The `sleep` calls of one window. -/
theorem window_filter_isSleep (env : Env) (k d : Nat) (reg : List Collector) :
    (window env k d reg).filter Ev.isSleep = List.replicate reg.length (Ev.sleep d) := by
  induction reg with
  | nil => rfl
  | cons c cs ih => simp [window, ih, Ev.isSleep, List.replicate_succ]

/-- A window never runs the exit hook. -/
theorem window_count_ignoreSigint (env : Env) (k d : Nat) (reg : List Collector) :
    (window env k d reg).count Ev.ignoreSigint = 0 := by
  induction reg with
  | nil => rfl
  | cons c cs ih => simp [window, ih]

/-- The loop of `endCollect` makes no `attach` call. -/
theorem endCollectItems_filter_isAttach (rt : Int) (reg : List Collector) :
    (endCollectItems rt reg).filter Ev.isAttach = [] := by
  induction reg with
  | nil => rfl
  | cons c cs ih => by_cases h : rt > 0 <;> simp [endCollectItems, ih, Ev.isAttach, h]

/-- The loop of `endCollect` makes no `sleep` call. -/
theorem endCollectItems_filter_isSleep (rt : Int) (reg : List Collector) :
    (endCollectItems rt reg).filter Ev.isSleep = [] := by
  induction reg with
  | nil => rfl
  | cons c cs ih => by_cases h : rt > 0 <;> simp [endCollectItems, ih, Ev.isSleep, h]

/-- The loop of `endCollect` does not touch the signal disposition. -/
theorem endCollectItems_count_ignoreSigint (rt : Int) (reg : List Collector) :
    (endCollectItems rt reg).count Ev.ignoreSigint = 0 := by
  induction reg with
  | nil => rfl
  | cons c cs ih => by_cases h : rt > 0 <;> simp [endCollectItems, ih, h]

/-- Claim C2: with window length `d > 0`, `2 * d` representable as `int`, no
trigger configured, target pid `-1` and `run_time = 2 * d`, the part of `main`
from `atexit(endCollect)` on runs exactly two windows (every collector of the
registry gets two attach/sleep/detach/render cycles), the loop then ends
through its condition, `main` returns 0 and `endCollect` runs exactly once. -/
theorem two_windows_then_shutdown (env : Env) (cfg : MainConfig) (reg : List Collector)
    (d fuel : Nat) (hd : 0 < d) (hrep : 2 * d < 2147483648)
    (htrig : cfg.trigger = "" ∨ cfg.trig_event = "") (hpid : cfg.target_pid = -1)
    (hdelay : cfg.delay = d) (hrt : cfg.run_time = 2 * d) :
    schedule env cfg reg (fuel + 3) =
      ⟨Outcome.returned 0, 0, 2,
        Ev.atexit :: (window env 0 d reg ++ window env 1 d reg) ++
          endCollect { cfg with run_time := 0 } reg⟩ ∧
    (schedule env cfg reg (fuel + 3)).trace.count Ev.ignoreSigint = 1 ∧
    (schedule env cfg reg (fuel + 3)).trace.filter Ev.isAttach =
      reg.map (fun c => Ev.attach c (env.attachRes 0 c)) ++
        reg.map (fun c => Ev.attach c (env.attachRes 1 c)) ∧
    (schedule env cfg reg (fuel + 3)).trace.filter Ev.isSleep =
      List.replicate (2 * reg.length) (Ev.sleep d) := by
  have h1 : subDelay (2 * (d : Int)) d = d := by
    rw [subDelay_eq _ _ (by omega) (by omega) (by omega)]; omega
  have h2 : subDelay (d : Int) d = 0 := by
    rw [subDelay_eq _ _ (by omega) (by omega) (by omega)]; omega
  have hg : ∀ j, gate env (-1) j = (false, []) := fun j => gate_of_neg env (-1) j (by decide)
  have hpre := schedLoop_iterations env d (-1) (-1) reg (fuel + 1) 2 (2 * (d : Int)) 0 (by
    intro j hj
    refine ⟨?_, Or.inl (by decide), by rw [hg]⟩
    interval_cases j
    · simp only [runTimeAfter]; omega
    · simp only [runTimeAfter, h1]; omega)
  have hend : schedLoop env d (-1) (-1) reg (fuel + 1) 0 2 = ⟨Outcome.returned 0, 0, 0, []⟩ := by
    simp [schedLoop]
  have hrun : schedLoop env d (-1) (-1) reg (fuel + 3) (2 * (d : Int)) 0 =
      ⟨Outcome.returned 0, 0, 2, window env 0 d reg ++ window env 1 d reg⟩ := by
    rw [show fuel + 3 = fuel + 1 + 2 from rfl, hpre]
    simp [runTimeAfter, h1, h2, hend, windowsTrace, probeCalls, hg]
  have hs : schedule env cfg reg (fuel + 3) =
      ⟨Outcome.returned 0, 0, 2,
        Ev.atexit :: (window env 0 d reg ++ window env 1 d reg) ++
          endCollect { cfg with run_time := 0 } reg⟩ := by
    unfold schedule
    rw [armTrigger_absent env cfg htrig]
    simp only [hpid, hdelay, hrt, hrun, List.nil_append]
    rfl
  rw [hs]
  refine ⟨rfl, ?_, ?_, ?_⟩
  · simp [endCollect, window_count_ignoreSigint, endCollectItems_count_ignoreSigint,
      List.count_cons, List.count_append]
    split <;> simp
  · simp [endCollect, window_filter_isAttach, endCollectItems_filter_isAttach, Ev.isAttach,
      List.filter_cons, List.filter_append]
  · rw [Nat.two_mul]
    simp [endCollect, window_filter_isSleep, endCollectItems_filter_isSleep, Ev.isSleep,
      List.filter_cons, List.filter_append]
    rw [List.replicate_add]
    split <;> simp [Ev.isSleep]

/-- Witness for claim C2: window length 5, budget 10, two collectors. -/
theorem two_windows_then_shutdown_witness :
    (schedule envOk { run_time := 10 } [1, 2] 3).windows = 2 ∧
    (schedule envOk { run_time := 10 } [1, 2] 3).trace.count Ev.ignoreSigint = 1 :=
  ⟨congrArg Run.windows
      (two_windows_then_shutdown envOk { run_time := 10 } [1, 2] 5 0 (by decide) (by decide)
        (Or.inl rfl) rfl rfl rfl).1,
    (two_windows_then_shutdown envOk { run_time := 10 } [1, 2] 5 0 (by decide) (by decide)
        (Or.inl rfl) rfl rfl rfl).2.1⟩

/-! Theorems: the structure of a window. -/

/-- Counterexample to claim C3 as stated: with the two collectors 1 and 2 the
window of the code differs from the attach-all, sleep once, detach-all window:
collector 1 is detached and rendered before collector 2 is attached, and the
process sleeps twice. -/
theorem window_not_attach_all :
    window envOk 0 5 [1, 2] ≠ specWindow envOk 0 5 [1, 2] ∧
    window envOk 0 5 [1, 2] =
      [Ev.attach 1 0, Ev.sleep 5, Ev.detach 1, Ev.render 1,
        Ev.attach 2 0, Ev.sleep 5, Ev.detach 2, Ev.render 2] ∧
    (window envOk 0 5 [1, 2]).count (Ev.sleep 5) = 2 ∧
    (specWindow envOk 0 5 [1, 2]).count (Ev.sleep 5) = 1 := by
  decide

/-- Claim C3, amended: in every window and for every registry the collectors
are handled one after the other in registry order, each one being attached,
slept on for `delay`, detached and rendered before the next one is attached;
a window over `n` collectors therefore sleeps `n` times for `delay`, and it is
the attach-all, sleep once, detach-all window exactly when the registry holds
one collector. -/
theorem window_sequential (env : Env) (k d : Nat) (reg : List Collector) (c : Collector) :
    window env k d reg =
      reg.flatMap (fun c =>
        [Ev.attach c (env.attachRes k c), Ev.sleep d, Ev.detach c, Ev.render c]) ∧
    (window env k d reg).filter Ev.isSleep = List.replicate reg.length (Ev.sleep d) ∧
    (window env k d reg).filter Ev.isAttach =
      reg.map (fun c => Ev.attach c (env.attachRes k c)) ∧
    window env k d [c] = specWindow env k d [c] :=
  ⟨window_eq_flatMap env k d reg, window_filter_isSleep env k d reg,
    window_filter_isAttach env k d reg, by simp [window, specWindow]⟩

/-! Theorems: the trigger gate. -/

/-- The trigger block makes `main` return when `poll` fails or reports
`POLLERR`. -/
theorem gate_error (env : Env) (fd : Int) (k : Nat) (hfd : 0 ≤ fd)
    (herr : (env.pollRes k).1 < 0 ∨ (env.pollRes k).2 &&& POLLERR ≠ 0) :
    gate env fd k = (true, [Ev.poll]) := by
  unfold gate
  rcases herr with h | h
  · simp [hfd, h]
  · simp only [ge_iff_le, hfd, if_true, h, ne_eq, not_false_eq_true]
    split <;> rfl

/-- The loop entered at a window whose trigger block fails. -/
theorem schedLoop_abort (env : Env) (d : Nat) (tp fd : Int) (reg : List Collector)
    (fuel : Nat) (rt : Int) (k : Nat) (hrt : 0 < rt) (hlive : tp < 0 ∨ env.alive k = true)
    (hgate : gate env fd k = (true, [Ev.poll])) :
    schedLoop env d tp fd reg (fuel + 1) rt k =
      ⟨Outcome.returned (-1), rt, 0, probeCalls tp ++ [Ev.poll]⟩ := by
  by_cases htp : tp < 0
  · simp [schedLoop, hrt, htp, hgate, probeCalls]
  · have ha : env.alive k = true := by
      rcases hlive with h | h
      · exact absurd h htp
      · exact h
    simp [schedLoop, hrt, htp, hgate, probeCalls, ha]

/-- With a configured trigger that opens and arms, the descriptor is the one
returned by `open`. -/
theorem armTrigger_present (env : Env) (cfg : MainConfig)
    (htrig : cfg.trigger ≠ "" ∧ cfg.trig_event ≠ "") (hopen : 0 ≤ env.openFd)
    (harm : 0 ≤ env.armRes) :
    armTrigger env cfg = (some env.openFd, [Ev.openTrigger, Ev.armTrigger]) := by
  unfold armTrigger
  simp [htrig, not_lt.mpr hopen, not_lt.mpr harm]

/-- The liveness probe is no `attach` call. -/
theorem probeCalls_filter_isAttach (tp : Int) : (probeCalls tp).filter Ev.isAttach = [] := by
  unfold probeCalls
  split <;> simp [Ev.isAttach]

/-- The exit hook makes no `attach` call. -/
theorem endCollect_filter_isAttach (cfg : MainConfig) (reg : List Collector) :
    (endCollect cfg reg).filter Ev.isAttach = [] := by
  simp [endCollect, endCollectItems_filter_isAttach, Ev.isAttach, List.filter_cons,
    List.filter_append]

/-- Claim C4: with a trigger configured (opened and armed), if the loop has
run `n` windows and enters window `n`, where `poll` fails or reports
`POLLERR`, then `main` returns -1, window `n` and all later windows make no
`attach` call (the `attach` calls of the run are those of the `n` earlier
windows), and the last call before the exit hook is that `poll`. -/
theorem trigger_error_aborts (env : Env) (cfg : MainConfig) (reg : List Collector)
    (fuel n : Nat) (htrig : cfg.trigger ≠ "" ∧ cfg.trig_event ≠ "")
    (hopen : 0 ≤ env.openFd) (harm : 0 ≤ env.armRes)
    (hpre : ∀ j, j < n → 0 < runTimeAfter cfg.delay j cfg.run_time ∧
      (cfg.target_pid < 0 ∨ env.alive j = true) ∧ (gate env env.openFd j).1 = false)
    (hrt : 0 < runTimeAfter cfg.delay n cfg.run_time)
    (hlive : cfg.target_pid < 0 ∨ env.alive n = true)
    (herr : (env.pollRes n).1 < 0 ∨ (env.pollRes n).2 &&& POLLERR ≠ 0) :
    (schedule env cfg reg (fuel + 1 + n)).outcome = Outcome.returned (-1) ∧
    (schedule env cfg reg (fuel + 1 + n)).windows = n ∧
    (schedule env cfg reg (fuel + 1 + n)).trace =
      Ev.atexit :: [Ev.openTrigger, Ev.armTrigger] ++
        windowsTrace env cfg.delay cfg.target_pid env.openFd reg n 0 ++
        (probeCalls cfg.target_pid ++ [Ev.poll]) ++
        endCollect { cfg with run_time := runTimeAfter cfg.delay n cfg.run_time } reg ∧
    (schedule env cfg reg (fuel + 1 + n)).trace.filter Ev.isAttach =
      (windowsTrace env cfg.delay cfg.target_pid env.openFd reg n 0).filter Ev.isAttach := by
  have hrun : schedLoop env cfg.delay cfg.target_pid env.openFd reg (fuel + 1 + n)
      cfg.run_time 0 =
      ⟨Outcome.returned (-1), runTimeAfter cfg.delay n cfg.run_time, n,
        windowsTrace env cfg.delay cfg.target_pid env.openFd reg n 0 ++
          (probeCalls cfg.target_pid ++ [Ev.poll])⟩ := by
    rw [schedLoop_iterations env cfg.delay cfg.target_pid env.openFd reg (fuel + 1) n
      cfg.run_time 0 (by simpa using hpre)]
    rw [schedLoop_abort env cfg.delay cfg.target_pid env.openFd reg fuel _ (0 + n) hrt
      (by simpa using hlive) (gate_error env env.openFd (0 + n) hopen (by simpa using herr))]
    simp
  have hs : schedule env cfg reg (fuel + 1 + n) =
      ⟨Outcome.returned (-1), runTimeAfter cfg.delay n cfg.run_time, n,
        Ev.atexit :: [Ev.openTrigger, Ev.armTrigger] ++
          windowsTrace env cfg.delay cfg.target_pid env.openFd reg n 0 ++
          (probeCalls cfg.target_pid ++ [Ev.poll]) ++
          endCollect { cfg with run_time := runTimeAfter cfg.delay n cfg.run_time } reg⟩ := by
    unfold schedule
    rw [armTrigger_present env cfg htrig hopen harm]
    simp only [hrun]
    simp
  rw [hs]
  refine ⟨rfl, rfl, rfl, ?_⟩
  simp [List.filter_cons, List.filter_append, Ev.isAttach, probeCalls_filter_isAttach,
    endCollect_filter_isAttach]

/-- Witness for claim C4: the trigger fires in window 0 and the control path
reports `POLLERR` in window 1. -/
theorem trigger_error_aborts_witness :
    (schedule envPollErr cfgTrigger [1, 2] 2).outcome = Outcome.returned (-1) ∧
    (schedule envPollErr cfgTrigger [1, 2] 2).windows = 1 :=
  have h := trigger_error_aborts envPollErr cfgTrigger [1, 2] 0 1 (by decide) (by decide)
    (by decide) (by intro j hj; interval_cases j; decide) (by decide) (by decide) (by decide)
  ⟨h.1, h.2.1⟩

/-! Theorems: the exit hook. -/

/-- The `detach` and `unload` calls of the loop of `endCollect`. -/
theorem endCollectItems_filter_release (rt : Int) (reg : List Collector) :
    (endCollectItems rt reg).filter Ev.isRelease =
      reg.flatMap (fun c => [Ev.detach c, Ev.unload c]) := by
  induction reg with
  | nil => rfl
  | cons c cs ih =>
    by_cases h : rt > 0 <;>
      simp [endCollectItems, ih, h, Ev.isRelease]

/-- The loop of `endCollect` calls collectors of the registry only. -/
theorem endCollectItems_collector_mem (rt : Int) (reg : List Collector) :
    ∀ e ∈ endCollectItems rt reg, ∀ c, e.collector? = some c → c ∈ reg := by
  induction reg with
  | nil => intro e he; simp [endCollectItems] at he
  | cons a cs ih =>
    intro e he c hc
    simp only [endCollectItems, List.mem_append, List.mem_cons] at he
    rcases he with he | he | he | he
    · split at he
      · simp only [List.mem_singleton] at he
        subst he
        simp only [Ev.collector?, Option.some.injEq] at hc
        simp [hc]
      · simp at he
    · subst he
      simp only [Ev.collector?, Option.some.injEq] at hc
      simp [hc]
    · subst he
      simp only [Ev.collector?, Option.some.injEq] at hc
      simp [hc]
    · exact List.mem_cons_of_mem _ (ih e he c hc)

/-- Claim C5: one run of `endCollect` calls `detach()` and then `unload()`
on every registry entry, in registry order, once per entry, and afterwards
sends `SIGTERM` to `target_pid` exactly when the command string is non-empty;
every call on a collector is on a collector of the registry. -/
theorem shutdown_sequence (cfg : MainConfig) (reg : List Collector) :
    (endCollect cfg reg).filter Ev.isRelease =
      reg.flatMap (fun c => [Ev.detach c, Ev.unload c]) ++
        (if cfg.command.length ≠ 0 then [Ev.sigterm cfg.target_pid] else []) ∧
    (∀ e ∈ endCollect cfg reg, ∀ c, e.collector? = some c → c ∈ reg) ∧
    (endCollect cfg reg).filter Ev.isLoadOrAttach = [] := by
  refine ⟨?_, ?_, ?_⟩
  · by_cases hc : cfg.command.length = 0 <;>
      simp [endCollect, List.filter_cons, List.filter_append, endCollectItems_filter_release,
        Ev.isRelease, hc]
  · intro e he c hc
    simp only [endCollect, List.mem_cons, List.mem_append] at he
    rcases he with (he | he) | he
    · subst he; simp [Ev.collector?] at hc
    · exact endCollectItems_collector_mem _ reg e he c hc
    · by_cases hl : cfg.command.length = 0
      · simp [hl] at he
      · simp only [ne_eq, hl, not_false_eq_true, if_true, List.mem_singleton] at he
        subst he; simp [Ev.collector?] at hc
  · have hitems : ∀ rs : List Collector,
        (endCollectItems cfg.run_time rs).filter Ev.isLoadOrAttach = [] := by
      intro rs
      induction rs with
      | nil => rfl
      | cons c cs ih =>
        by_cases h : cfg.run_time > 0 <;>
          simp [endCollectItems, ih, h, Ev.isLoadOrAttach]
    by_cases hc : cfg.command.length = 0 <;>
      simp [endCollect, List.filter_cons, List.filter_append, hitems, Ev.isLoadOrAttach, hc]

/-! Theorems: the lifecycle macros. -/

/-- The freshly constructed collector satisfies the log invariant. -/
theorem logInv_init : LogInv initWorld := by
  refine ⟨?_, ?_, ?_, ?_⟩ <;> intro h <;> simp [initWorld]

/-- Macro `StackProgLoadOpen` keeps the log invariant. -/
theorem logInv_load (openOk : Bool) (loadErr : Int) (w : World) (hw : LogInv w) :
    LogInv (StackProgLoadOpen openOk loadErr w).1 := by
  obtain ⟨h1, h2, h3, h4⟩ := hw
  unfold StackProgLoadOpen
  cases openOk
  · refine ⟨?_, ?_, ?_, ?_⟩
    · intro h; simpa [List.count_append, List.count_cons] using h1 h
    · intro h hh; simpa [List.count_append, List.count_cons] using h2 h hh
    · intro h; simpa [List.count_append, List.count_cons] using h3 h
    · intro h hh; simp at hh
  · have key : ∀ h, (w.calls ++ [SkelCall.openSkel (some w.fresh),
        SkelCall.load w.fresh loadErr]).count (SkelCall.openSkel (some h)) =
        w.calls.count (SkelCall.openSkel (some h)) + if w.fresh = h then 1 else 0 := by
      intro h
      simp [List.count_append, List.count_cons]
    have keyd : ∀ h, (w.calls ++ [SkelCall.openSkel (some w.fresh),
        SkelCall.load w.fresh loadErr]).count (SkelCall.destroy h) =
        w.calls.count (SkelCall.destroy h) := by
      intro h
      simp [List.count_append, List.count_cons]
    have hinv : LogInv { w with
        self := { w.self with skel := some w.fresh, err := loadErr }
        fresh := w.fresh + 1
        calls := w.calls ++ [SkelCall.openSkel (some w.fresh),
          SkelCall.load w.fresh loadErr] } := by
      refine ⟨?_, ?_, ?_, ?_⟩
      · intro h
        show (w.calls ++ _).count _ ≤ 1
        rw [key]
        by_cases hh : w.fresh = h
        · subst hh; simp [h2 w.fresh (le_refl _)]
        · simpa [hh] using h1 h
      · intro h hh
        show (w.calls ++ _).count _ = 0
        rw [key]
        have hlt : w.fresh < h := hh
        have hne : w.fresh ≠ h := Nat.ne_of_lt hlt
        have : w.fresh ≤ h := Nat.le_of_lt hlt
        simp [hne, h2 h this]
      · intro h
        show (w.calls ++ _).count _ ≤ (w.calls ++ _).count _
        rw [key, keyd]
        exact Nat.le_trans (h3 h) (Nat.le_add_right _ _)
      · intro h hh
        have he : w.fresh = h := by simpa using hh
        subst he
        show (w.calls ++ _).count _ = 0 ∧ (w.calls ++ _).count _ = 1
        rw [key, keyd]
        have h0 := h2 w.fresh (le_refl _)
        have hd := h3 w.fresh
        constructor
        · omega
        · simp [h0]
    by_cases he : loadErr = 0
    · simpa [he, LogInv] using hinv
    · simpa [he, LogInv] using hinv

/-- Macro `defaultAttach` keeps the log invariant. -/
theorem logInv_attach (attachErr : Int) (w : World) (hw : LogInv w) :
    LogInv (defaultAttach attachErr w).1 := by
  obtain ⟨h1, h2, h3, h4⟩ := hw
  unfold defaultAttach
  cases hs : w.self.skel with
  | none =>
    refine ⟨h1, h2, h3, ?_⟩
    intro h hh
    exact h4 h hh
  | some a =>
    refine ⟨?_, ?_, ?_, ?_⟩
    · intro h; simpa [List.count_append, List.count_cons] using h1 h
    · intro h hh; simpa [List.count_append, List.count_cons] using h2 h hh
    · intro h; simpa [List.count_append, List.count_cons] using h3 h
    · intro h hh
      have : w.self.skel = some h := by simpa [hs] using hh
      simpa [List.count_append, List.count_cons] using h4 h this

/-- Macro `defaultDetach` keeps the log invariant. -/
theorem logInv_detach (w : World) (hw : LogInv w) : LogInv (defaultDetach w) := by
  obtain ⟨h1, h2, h3, h4⟩ := hw
  unfold defaultDetach
  cases hs : w.self.skel with
  | none => exact ⟨h1, h2, h3, h4⟩
  | some a =>
    refine ⟨?_, ?_, ?_, ?_⟩
    · intro h; simpa [List.count_append, List.count_cons] using h1 h
    · intro h hh; simpa [List.count_append, List.count_cons] using h2 h hh
    · intro h; simpa [List.count_append, List.count_cons] using h3 h
    · intro h hh
      simpa [List.count_append, List.count_cons] using h4 h hh

/-- Macro `defaultUnload` keeps the log invariant. -/
theorem logInv_unload (w : World) (hw : LogInv w) : LogInv (defaultUnload w) := by
  obtain ⟨h1, h2, h3, h4⟩ := hw
  unfold defaultUnload
  cases hs : w.self.skel with
  | none =>
    refine ⟨h1, h2, h3, ?_⟩
    intro h hh
    simp at hh
  | some a =>
    have ha := h4 a hs
    refine ⟨?_, ?_, ?_, ?_⟩
    · intro h; simpa [List.count_append, List.count_cons] using h1 h
    · intro h hh; simpa [List.count_append, List.count_cons] using h2 h hh
    · intro h
      show (w.calls ++ [SkelCall.destroy a]).count _ ≤ (w.calls ++ [SkelCall.destroy a]).count _
      simp only [List.count_append, List.count_cons, List.count_nil]
      by_cases hah : a = h
      · subst hah
        simp [ha.1, ha.2]
      · simpa [hah] using h3 h
    · intro h hh
      simp at hh

/-- Every method call keeps the log invariant. -/
theorem logInv_step (w : World) (c : Call) (hw : LogInv w) : LogInv (step w c) := by
  unfold step
  by_cases hc : w.crashed = true
  · simpa [hc] using hw
  · simp only [hc]
    cases c with
    | load o e => exact logInv_load o e w hw
    | attach e => exact logInv_attach e w hw
    | detach => exact logInv_detach w hw
    | unload => exact logInv_unload w hw

/-- Every sequence of method calls keeps the log invariant. -/
theorem logInv_runCalls (cs : List Call) : ∀ w, LogInv w → LogInv (runCalls w cs) := by
  induction cs with
  | nil => intro w hw; exact hw
  | cons c cs ih =>
    intro w hw
    exact ih (step w c) (logInv_step w c hw)

/-- Claim C6: `unload()` leaves the skeleton pointer `NULL` in every state; a
second `unload()` changes nothing and calls nothing (unload; unload =
unload); after a failed `open` it makes no backend call, after a successful
`open` (whether or not the load then failed) it destroys the skeleton just
opened; and over any sequence of method calls on a fresh collector `destroy`
is called on a skeleton no more often than that skeleton was opened, which is
at most once. -/
theorem unload_idempotent (w : World) (loadErr : Int) (cs : List Call) (h : Handle) :
    (defaultUnload w).self.skel = none ∧
    defaultUnload (defaultUnload w) = defaultUnload w ∧
    (defaultUnload (StackProgLoadOpen false loadErr w).1).calls =
      (StackProgLoadOpen false loadErr w).1.calls ∧
    (defaultUnload (StackProgLoadOpen true loadErr w).1).calls =
      (StackProgLoadOpen true loadErr w).1.calls ++ [SkelCall.destroy w.fresh] ∧
    (runCalls initWorld cs).calls.count (SkelCall.destroy h) ≤
      (runCalls initWorld cs).calls.count (SkelCall.openSkel (some h)) ∧
    (runCalls initWorld cs).calls.count (SkelCall.openSkel (some h)) ≤ 1 := by
  have hinv := logInv_runCalls cs initWorld logInv_init
  refine ⟨?_, ?_, ?_, ?_, hinv.2.2.1 h, hinv.1 h⟩
  · unfold defaultUnload
    cases hs : w.self.skel <;> simp
  · unfold defaultUnload
    cases hs : w.self.skel <;> simp [hs]
  · simp [defaultUnload, StackProgLoadOpen]
  · by_cases he : loadErr = 0 <;> simp [defaultUnload, StackProgLoadOpen, he]

/-! Theorems: `detach()`. -/

/-- Counterexample to claim C7 as stated: on a collector that is loaded but
was never attached, and on one that was attached and already detached,
`detach()` does call the backend. -/
theorem detach_calls_backend_when_not_attached :
    (defaultDetach (runCalls initWorld [Call.load true 0])).calls =
      (runCalls initWorld [Call.load true 0]).calls ++ [SkelCall.detach 0] ∧
    defaultDetach (runCalls initWorld [Call.load true 0]) ≠
      runCalls initWorld [Call.load true 0] ∧
    (defaultDetach (runCalls initWorld [Call.load true 0, Call.attach 0, Call.detach])).calls =
      [SkelCall.openSkel (some 0), SkelCall.load 0 0, SkelCall.attach 0 0, SkelCall.detach 0,
        SkelCall.detach 0] := by
  decide

/-- Claim C7, amended: `detach()` is guarded by the skeleton pointer, not by
the attachment: it calls the backend `detach` once when `skel` is not `NULL`
and makes no call when `skel` is `NULL`; in every state it leaves the members
of the collector (`skel`, `obj`, `err`) unchanged, never calls `destroy`, and
calling it twice leaves the same members as calling it once. -/
theorem detach_guarded_by_skel (w : World) (h : Handle) :
    (defaultDetach w).self = w.self ∧
    (defaultDetach w).calls =
      w.calls ++ (match w.self.skel with
        | some a => [SkelCall.detach a]
        | none => []) ∧
    (defaultDetach w).calls.count (SkelCall.destroy h) = w.calls.count (SkelCall.destroy h) ∧
    (defaultDetach (defaultDetach w)).self = (defaultDetach w).self ∧
    (defaultDetach w).fresh = w.fresh := by
  unfold defaultDetach
  cases hs : w.self.skel <;> simp [hs, List.count_append, List.count_cons]

/-! Theorems: how the scheduling loop ends. -/

/-- The loop entered with the budget spent ends at once. -/
theorem schedLoop_spent (env : Env) (d : Nat) (tp fd : Int) (reg : List Collector)
    (fuel : Nat) (rt : Int) (k : Nat) (hrt : ¬ 0 < rt) :
    schedLoop env d tp fd reg (fuel + 1) rt k = ⟨Outcome.returned 0, rt, 0, []⟩ := by
  simp [schedLoop, hrt]

/-- The loop entered with budget left and a target that is gone ends after
the probe. -/
theorem schedLoop_dead (env : Env) (d : Nat) (tp fd : Int) (reg : List Collector)
    (fuel : Nat) (rt : Int) (k : Nat) (hrt : 0 < rt) (htp : ¬ tp < 0)
    (hdead : env.alive k = false) :
    schedLoop env d tp fd reg (fuel + 1) rt k =
      ⟨Outcome.returned 0, rt, 0, [Ev.probe tp]⟩ := by
  simp [schedLoop, hrt, htp, hdead]

/-- The loop entered at a window whose trigger block makes `main` return. -/
theorem schedLoop_gate_fail (env : Env) (d : Nat) (tp fd : Int) (reg : List Collector)
    (fuel : Nat) (rt : Int) (k : Nat) (hrt : 0 < rt) (hlive : tp < 0 ∨ env.alive k = true)
    (hgate : (gate env fd k).1 = true) :
    schedLoop env d tp fd reg (fuel + 1) rt k =
      ⟨Outcome.returned (-1), rt, 0, probeCalls tp ++ (gate env fd k).2⟩ := by
  by_cases htp : tp < 0
  · simp [schedLoop, hrt, htp, hgate, probeCalls]
  · have ha : env.alive k = true := by
      rcases hlive with h | h
      · exact absurd h htp
      · exact h
    simp [schedLoop, hrt, htp, hgate, probeCalls, ha]

/-- Every run of the scheduling loop: it makes `windows` complete iterations,
each entered with budget left, a target that is `-1` or alive and a trigger
block that lets it through, and then ends in one of four ways: the fuel of
the model is used up, the budget is spent, the target is gone, or the trigger
block makes `main` return -1. -/
theorem schedLoop_char (env : Env) (d : Nat) (tp fd : Int) (reg : List Collector) :
    ∀ (fuel : Nat) (rt : Int) (k : Nat),
    (schedLoop env d tp fd reg fuel rt k).run_time =
      runTimeAfter d (schedLoop env d tp fd reg fuel rt k).windows rt ∧
    (∀ j, j < (schedLoop env d tp fd reg fuel rt k).windows →
      0 < runTimeAfter d j rt ∧ (tp < 0 ∨ env.alive (k + j) = true) ∧
        (gate env fd (k + j)).1 = false) ∧
    (((schedLoop env d tp fd reg fuel rt k).outcome = Outcome.running ∧
        (schedLoop env d tp fd reg fuel rt k).windows = fuel ∧
        (schedLoop env d tp fd reg fuel rt k).trace =
          windowsTrace env d tp fd reg (schedLoop env d tp fd reg fuel rt k).windows k) ∨
      ((schedLoop env d tp fd reg fuel rt k).outcome = Outcome.returned 0 ∧
        ¬ 0 < (schedLoop env d tp fd reg fuel rt k).run_time ∧
        (schedLoop env d tp fd reg fuel rt k).trace =
          windowsTrace env d tp fd reg (schedLoop env d tp fd reg fuel rt k).windows k) ∨
      ((schedLoop env d tp fd reg fuel rt k).outcome = Outcome.returned 0 ∧
        0 < (schedLoop env d tp fd reg fuel rt k).run_time ∧ ¬ tp < 0 ∧
        env.alive (k + (schedLoop env d tp fd reg fuel rt k).windows) = false ∧
        (schedLoop env d tp fd reg fuel rt k).trace =
          windowsTrace env d tp fd reg (schedLoop env d tp fd reg fuel rt k).windows k ++
            [Ev.probe tp]) ∨
      ((schedLoop env d tp fd reg fuel rt k).outcome = Outcome.returned (-1) ∧
        0 < (schedLoop env d tp fd reg fuel rt k).run_time ∧
        (tp < 0 ∨ env.alive (k + (schedLoop env d tp fd reg fuel rt k).windows) = true) ∧
        (gate env fd (k + (schedLoop env d tp fd reg fuel rt k).windows)).1 = true ∧
        (schedLoop env d tp fd reg fuel rt k).trace =
          windowsTrace env d tp fd reg (schedLoop env d tp fd reg fuel rt k).windows k ++
            (probeCalls tp ++
              (gate env fd (k + (schedLoop env d tp fd reg fuel rt k).windows)).2))) := by
  intro fuel
  induction fuel with
  | zero =>
    intro rt k
    refine ⟨rfl, ?_, Or.inl ⟨rfl, rfl, rfl⟩⟩
    intro j hj
    exact absurd hj (Nat.not_lt_zero j)
  | succ fuel ih =>
    intro rt k
    by_cases hrt : 0 < rt
    · by_cases hlive : tp < 0 ∨ env.alive k = true
      · by_cases hgate : (gate env fd k).1 = true
        · rw [schedLoop_gate_fail env d tp fd reg fuel rt k hrt hlive hgate]
          refine ⟨rfl, ?_, Or.inr (Or.inr (Or.inr ⟨rfl, hrt, ?_, ?_, ?_⟩))⟩
          · intro j hj
            exact absurd hj (Nat.not_lt_zero j)
          · simpa using hlive
          · simpa using hgate
          · simp [windowsTrace]
        · have hgate' : (gate env fd k).1 = false := by simpa using hgate
          rw [schedLoop_step env d tp fd reg fuel rt k hrt hlive hgate']
          obtain ⟨h1, h2, h3⟩ := ih (subDelay rt d) (k + 1)
          refine ⟨?_, ?_, ?_⟩
          · simpa [runTimeAfter] using h1
          · intro j hj
            cases j with
            | zero => exact ⟨hrt, hlive, hgate'⟩
            | succ j =>
              have := h2 j (Nat.lt_of_succ_lt_succ hj)
              simpa [runTimeAfter, Nat.add_assoc, Nat.add_comm 1 j] using this
          · have hk : ∀ n, k + (n + 1) = k + 1 + n := fun n => by omega
            rcases h3 with h | h | h | h
            · refine Or.inl ⟨h.1, by simpa using h.2.1, ?_⟩
              simp [windowsTrace, h.2.2]
            · refine Or.inr (Or.inl ⟨h.1, h.2.1, ?_⟩)
              simp [windowsTrace, h.2.2]
            · refine Or.inr (Or.inr (Or.inl ⟨h.1, h.2.1, h.2.2.1, ?_, ?_⟩))
              · have h' := h.2.2.2.1
                rw [← hk] at h'
                exact h'
              · simp [windowsTrace, h.2.2.2.2]
            · refine Or.inr (Or.inr (Or.inr ⟨h.1, h.2.1, ?_, ?_, ?_⟩))
              · have h' := h.2.2.1
                rw [← hk] at h'
                exact h'
              · have h' := h.2.2.2.1
                rw [← hk] at h'
                exact h'
              · have h' := h.2.2.2.2
                rw [← hk] at h'
                simp only [windowsTrace, h', List.append_assoc]
      · have htp : ¬ tp < 0 := fun h => hlive (Or.inl h)
        have hdead : env.alive k = false := by
          cases ha : env.alive k with
          | false => rfl
          | true => exact absurd (Or.inr ha) hlive
        rw [schedLoop_dead env d tp fd reg fuel rt k hrt htp hdead]
        refine ⟨rfl, ?_, Or.inr (Or.inr (Or.inl ⟨rfl, hrt, htp, ?_, ?_⟩))⟩
        · intro j hj
          exact absurd hj (Nat.not_lt_zero j)
        · simpa using hdead
        · simp [windowsTrace]
    · rw [schedLoop_spent env d tp fd reg fuel rt k hrt]
      refine ⟨rfl, ?_, Or.inr (Or.inl ⟨rfl, hrt, ?_⟩)⟩
      · intro j hj
        exact absurd hj (Nat.not_lt_zero j)
      · simp [windowsTrace]

/-! Theorems: the final render. -/

/-- The part of `main` from `atexit(endCollect)` on, when the trigger set-up
succeeds and the loop makes `main` return. -/
theorem schedule_of_returned (env : Env) (cfg : MainConfig) (reg : List Collector)
    (fuel : Nat) (fd : Int) (evs : List Ev) (st : Int)
    (harm : armTrigger env cfg = (some fd, evs))
    (hout : (schedLoop env cfg.delay cfg.target_pid fd reg fuel cfg.run_time 0).outcome =
      Outcome.returned st) :
    schedule env cfg reg fuel =
      ⟨Outcome.returned st,
        (schedLoop env cfg.delay cfg.target_pid fd reg fuel cfg.run_time 0).run_time,
        (schedLoop env cfg.delay cfg.target_pid fd reg fuel cfg.run_time 0).windows,
        Ev.atexit :: evs ++
          (schedLoop env cfg.delay cfg.target_pid fd reg fuel cfg.run_time 0).trace ++
          endCollect { cfg with run_time :=
            (schedLoop env cfg.delay cfg.target_pid fd reg fuel cfg.run_time 0).run_time }
            reg⟩ := by
  unfold schedule
  rw [harm]
  simp only [hout]

/-- When `main` returns 0 from the scheduling part, the trigger set-up has
succeeded and the loop has ended through its condition. -/
theorem schedule_returned_zero (env : Env) (cfg : MainConfig) (reg : List Collector)
    (fuel : Nat) (h : (schedule env cfg reg fuel).outcome = Outcome.returned 0) :
    ∃ fd evs, armTrigger env cfg = (some fd, evs) ∧
      (schedLoop env cfg.delay cfg.target_pid fd reg fuel cfg.run_time 0).outcome =
        Outcome.returned 0 := by
  unfold schedule at h
  rcases harm : armTrigger env cfg with ⟨o, evs⟩
  rw [harm] at h
  cases o with
  | none => simp at h
  | some fd =>
    refine ⟨fd, evs, rfl, ?_⟩
    simp only at h
    cases hro : (schedLoop env cfg.delay cfg.target_pid fd reg fuel cfg.run_time 0).outcome with
    | returned st =>
      rw [hro] at h
      simpa using h
    | execed => rw [hro] at h; simp at h
    | childExit => rw [hro] at h; simp at h
    | running => rw [hro] at h; simp at h

/-- The `render` and `detach` calls of the loop of `endCollect`. -/
theorem endCollectItems_filter_isRenderOrDetach (rt : Int) (reg : List Collector) :
    (endCollectItems rt reg).filter Ev.isRenderOrDetach =
      if rt > 0 then reg.flatMap (fun c => [Ev.render c, Ev.detach c])
      else reg.map Ev.detach := by
  induction reg with
  | nil => simp [endCollectItems]
  | cons c cs ih =>
    by_cases h : rt > 0
    · simp only [h, if_true] at ih ⊢
      simp [endCollectItems, ih, h, Ev.isRenderOrDetach]
    · simp only [h, if_false] at ih ⊢
      simp [endCollectItems, ih, h, Ev.isRenderOrDetach]

/-- The `render` calls of the loop of `endCollect`. -/
theorem endCollectItems_filter_isRender (rt : Int) (reg : List Collector) :
    (endCollectItems rt reg).filter Ev.isRender =
      if rt > 0 then reg.map Ev.render else [] := by
  induction reg with
  | nil => simp [endCollectItems]
  | cons c cs ih =>
    by_cases h : rt > 0
    · simp only [h, if_true] at ih ⊢
      simp [endCollectItems, ih, h, Ev.isRender]
    · simp only [h, if_false] at ih ⊢
      simp [endCollectItems, ih, h, Ev.isRender]

/-- The `render` calls of `endCollect`. -/
theorem endCollect_filter_isRender (cfg : MainConfig) (reg : List Collector) :
    (endCollect cfg reg).filter Ev.isRender =
      if cfg.run_time > 0 then reg.map Ev.render else [] := by
  by_cases hc : cfg.command.length = 0 <;>
    simp [endCollect, List.filter_cons, List.filter_append, endCollectItems_filter_isRender,
      Ev.isRender, hc]

/-- Claim C8: `endCollect` prints the collectors exactly when `run_time > 0`
at that point, and then it prints every registry entry, each one just before
its `detach`; when `main` returns 0 the exit hook runs with the `run_time`
the loop ended with, so after an exit by budget exhaustion (`run_time <= 0`)
nothing is printed at shutdown, and after an exit caused by the probe finding
the target gone (budget left) every collector of the registry is printed once
more. -/
theorem final_render (env : Env) (cfg : MainConfig) (reg : List Collector) (fuel : Nat) :
    (endCollect cfg reg).filter Ev.isRenderOrDetach =
      (if cfg.run_time > 0 then reg.flatMap (fun c => [Ev.render c, Ev.detach c])
        else reg.map Ev.detach) ∧
    (endCollect cfg reg).filter Ev.isRender =
      (if cfg.run_time > 0 then reg.map Ev.render else []) ∧
    ((schedule env cfg reg fuel).outcome = Outcome.returned 0 →
      ∃ pre, (schedule env cfg reg fuel).trace =
          pre ++ endCollect { cfg with run_time := (schedule env cfg reg fuel).run_time } reg ∧
        ((¬ 0 < (schedule env cfg reg fuel).run_time ∧
            (endCollect { cfg with run_time := (schedule env cfg reg fuel).run_time }
              reg).filter Ev.isRender = []) ∨
          (0 < (schedule env cfg reg fuel).run_time ∧ ¬ cfg.target_pid < 0 ∧
            env.alive (schedule env cfg reg fuel).windows = false ∧
            (endCollect { cfg with run_time := (schedule env cfg reg fuel).run_time }
              reg).filter Ev.isRender = reg.map Ev.render))) := by
  refine ⟨?_, endCollect_filter_isRender cfg reg, ?_⟩
  · by_cases hc : cfg.command.length = 0 <;>
      simp [endCollect, List.filter_cons, List.filter_append,
        endCollectItems_filter_isRenderOrDetach, Ev.isRenderOrDetach, hc]
  · intro h
    obtain ⟨fd, evs, harm, hout⟩ := schedule_returned_zero env cfg reg fuel h
    rw [schedule_of_returned env cfg reg fuel fd evs 0 harm hout]
    refine ⟨_, rfl, ?_⟩
    obtain ⟨-, -, h3⟩ := schedLoop_char env cfg.delay cfg.target_pid fd reg fuel cfg.run_time 0
    rw [endCollect_filter_isRender]
    rcases h3 with h3 | h3 | h3 | h3
    · rw [hout] at h3; exact absurd h3.1 (by simp)
    · exact Or.inl ⟨h3.2.1, by simp [h3.2.1]⟩
    · refine Or.inr ⟨h3.2.1, h3.2.2.1, by simpa using h3.2.2.2.1, ?_⟩
      simp only
      rw [if_pos h3.2.1]
    · rw [hout] at h3; exact absurd h3.1 (by simp)

/-! Theorems: the start of `main`. -/

/-- A window makes no `load` call and does not write the readiness event. -/
theorem window_filter_isLoadOrWake (env : Env) (k d : Nat) (reg : List Collector) :
    (window env k d reg).filter Ev.isLoadOrWake = [] := by
  induction reg with
  | nil => rfl
  | cons c cs ih => simp [window, ih, Ev.isLoadOrWake]

/-- The trigger block makes no `load` call and does not write the readiness
event. -/
theorem gate_filter_isLoadOrWake (env : Env) (fd : Int) (k : Nat) :
    (gate env fd k).2.filter Ev.isLoadOrWake = [] := by
  unfold gate
  split_ifs <;> simp [Ev.isLoadOrWake]

/-- The probe is no `load` call and no readiness event. -/
theorem probeCalls_filter_isLoadOrWake (tp : Int) :
    (probeCalls tp).filter Ev.isLoadOrWake = [] := by
  unfold probeCalls
  split_ifs <;> simp [Ev.isLoadOrWake]

/-- Complete iterations make no `load` call and do not write the readiness
event. -/
theorem windowsTrace_filter_isLoadOrWake (env : Env) (d : Nat) (tp fd : Int)
    (reg : List Collector) : ∀ (n k : Nat),
    (windowsTrace env d tp fd reg n k).filter Ev.isLoadOrWake = [] := by
  intro n
  induction n with
  | zero => intro k; rfl
  | succ n ih =>
    intro k
    simp [windowsTrace, List.filter_append, ih, window_filter_isLoadOrWake,
      gate_filter_isLoadOrWake, probeCalls_filter_isLoadOrWake]

/-- The scheduling loop makes no `load` call and does not write the readiness
event. -/
theorem schedLoop_filter_isLoadOrWake (env : Env) (d : Nat) (tp fd : Int)
    (reg : List Collector) (fuel : Nat) (rt : Int) (k : Nat) :
    (schedLoop env d tp fd reg fuel rt k).trace.filter Ev.isLoadOrWake = [] := by
  obtain ⟨-, -, h⟩ := schedLoop_char env d tp fd reg fuel rt k
  rcases h with h | h | h | h
  · rw [h.2.2, windowsTrace_filter_isLoadOrWake]
  · rw [h.2.2, windowsTrace_filter_isLoadOrWake]
  · rw [h.2.2.2.2]
    simp [List.filter_append, windowsTrace_filter_isLoadOrWake, Ev.isLoadOrWake]
  · rw [h.2.2.2.2]
    simp [List.filter_append, windowsTrace_filter_isLoadOrWake,
      gate_filter_isLoadOrWake, probeCalls_filter_isLoadOrWake]

/-- The exit hook makes no `load` call and does not write the readiness
event. -/
theorem endCollect_filter_isLoadOrWake (cfg : MainConfig) (reg : List Collector) :
    (endCollect cfg reg).filter Ev.isLoadOrWake = [] := by
  have hitems : ∀ rs : List Collector,
      (endCollectItems cfg.run_time rs).filter Ev.isLoadOrWake = [] := by
    intro rs
    induction rs with
    | nil => rfl
    | cons c cs ih =>
      by_cases h : cfg.run_time > 0 <;> simp [endCollectItems, ih, h, Ev.isLoadOrWake]
  by_cases hc : cfg.command.length = 0 <;>
    simp [endCollect, List.filter_cons, List.filter_append, hitems, Ev.isLoadOrWake, hc]

/-- The trigger set-up makes no `load` call and does not write the readiness
event. -/
theorem armTrigger_filter_isLoadOrWake (env : Env) (cfg : MainConfig) :
    (armTrigger env cfg).2.filter Ev.isLoadOrWake = [] := by
  unfold armTrigger
  split_ifs <;> simp [Ev.isLoadOrWake]

/-- From `atexit(endCollect)` on, `main` makes no `load` call and does not
write the readiness event. -/
theorem schedule_filter_isLoadOrWake (env : Env) (cfg : MainConfig) (reg : List Collector)
    (fuel : Nat) : (schedule env cfg reg fuel).trace.filter Ev.isLoadOrWake = [] := by
  have ha := armTrigger_filter_isLoadOrWake env cfg
  unfold schedule
  rcases harm : armTrigger env cfg with ⟨o, evs⟩
  rw [harm] at ha
  cases o with
  | none =>
    simp only [List.filter_cons, List.filter_append, endCollect_filter_isLoadOrWake]
    simpa [Ev.isLoadOrWake] using ha
  | some fd =>
    simp only
    have hl := schedLoop_filter_isLoadOrWake env cfg.delay cfg.target_pid fd reg fuel
      cfg.run_time 0
    cases hro : (schedLoop env cfg.delay cfg.target_pid fd reg fuel cfg.run_time 0).outcome <;>
      simp only [List.filter_cons, List.filter_append, endCollect_filter_isLoadOrWake, hl] <;>
      simpa [Ev.isLoadOrWake] using ha

/-- The `load` calls of the load loop; the loop does not write the readiness
event. -/
theorem loadCalls_filter_isLoadOrWake (env : Env) (cs : List Collector) :
    (loadCalls env cs).filter Ev.isLoadOrWake = cs.map (fun c => Ev.load c (env.loadRes c)) := by
  induction cs with
  | nil => rfl
  | cons c cs ih =>
    by_cases hr : env.loadRes c = 0 <;> simp [loadCalls, hr, Ev.isLoadOrWake, ih]

/-- The load loop makes `load` and `unload` calls only. -/
theorem loadCalls_isLoadOrUnload (env : Env) (cs : List Collector) :
    ∀ e ∈ loadCalls env cs, e.isLoadOrUnload = true := by
  induction cs with
  | nil => intro e he; simp [loadCalls] at he
  | cons c cs ih =>
    intro e he
    by_cases hr : env.loadRes c = 0
    · simp only [loadCalls, hr, ne_eq, not_true_eq_false, if_false, List.mem_cons] at he
      rcases he with he | he
      · subst he; rfl
      · exact ih e he
    · simp only [loadCalls, hr, ne_eq, not_false_eq_true, if_true, List.mem_cons] at he
      rcases he with he | he | he
      · subst he; rfl
      · subst he; rfl
      · exact ih e he

/-- The parent process after a successful `fork`: the load loop, then, when a
collector is left, the readiness event and the scheduling part. -/
theorem main_parent (env : Env) (cfg : MainConfig) (reg0 : List Collector) (fuel : Nat)
    (hreg : reg0 ≠ []) (hev : 0 ≤ env.eventfd) (hcmd : cfg.command.length ≠ 0)
    (hp1 : env.forkRes ≠ -1) (hp0 : env.forkRes ≠ 0) :
    main env cfg reg0 fuel =
      if reg0.filter (fun c => decide (env.loadRes c = 0)) = [] then
        ⟨Outcome.returned (-1), cfg.run_time, 0, Ev.fork :: loadCalls env reg0⟩
      else
        ⟨(schedule env { cfg with target_pid := env.forkRes }
            (reg0.filter (fun c => decide (env.loadRes c = 0))) fuel).outcome,
          (schedule env { cfg with target_pid := env.forkRes }
            (reg0.filter (fun c => decide (env.loadRes c = 0))) fuel).run_time,
          (schedule env { cfg with target_pid := env.forkRes }
            (reg0.filter (fun c => decide (env.loadRes c = 0))) fuel).windows,
          Ev.fork :: loadCalls env reg0 ++ Ev.wakeChild ::
            (schedule env { cfg with target_pid := env.forkRes }
              (reg0.filter (fun c => decide (env.loadRes c = 0))) fuel).trace⟩ := by
  have hlen : reg0.length ≠ 0 := by
    intro h
    exact hreg (List.length_eq_zero.mp h)
  unfold main loadAndRun
  rw [loadLoop_zero]
  simp only [hlen, if_false, not_lt.mpr hev, hcmd, ne_eq, not_false_eq_true, if_true, hp1, hp0,
    List.length_eq_zero]
  split_ifs <;> simp

/-- Claim C9: in spawned-command mode the parent's calls are `fork`, then the
load loop (`load()` once on every collector of the initial registry), then,
only when a collector loaded, the readiness event followed by the scheduling
part, which makes no further `load` call and writes no further readiness
event; when every `load()` fails `main` returns -1 having made only `fork`,
`load` and `unload` calls: no readiness event, no `attach`, no loop. -/
theorem startup_handshake (env : Env) (cfg : MainConfig) (reg0 : List Collector)
    (fuel : Nat) (hreg : reg0 ≠ []) (hev : 0 ≤ env.eventfd) (hcmd : cfg.command.length ≠ 0)
    (hp1 : env.forkRes ≠ -1) (hp0 : env.forkRes ≠ 0) :
    (main env cfg reg0 fuel).trace =
      Ev.fork :: loadCalls env reg0 ++
        (if reg0.filter (fun c => decide (env.loadRes c = 0)) = [] then []
          else Ev.wakeChild ::
            (schedule env { cfg with target_pid := env.forkRes }
              (reg0.filter (fun c => decide (env.loadRes c = 0))) fuel).trace) ∧
    (main env cfg reg0 fuel).trace.filter Ev.isLoadOrWake =
      reg0.map (fun c => Ev.load c (env.loadRes c)) ++
        (if reg0.filter (fun c => decide (env.loadRes c = 0)) = [] then []
          else [Ev.wakeChild]) ∧
    ((∀ c ∈ reg0, env.loadRes c ≠ 0) →
      main env cfg reg0 fuel =
        ⟨Outcome.returned (-1), cfg.run_time, 0, Ev.fork :: loadCalls env reg0⟩ ∧
      ∀ e ∈ (main env cfg reg0 fuel).trace, e = Ev.fork ∨ e.isLoadOrUnload = true) := by
  rw [main_parent env cfg reg0 fuel hreg hev hcmd hp1 hp0]
  refine ⟨?_, ?_, ?_⟩
  · split_ifs <;> simp
  · split_ifs <;>
      simp [List.filter_cons, List.filter_append, loadCalls_filter_isLoadOrWake,
        schedule_filter_isLoadOrWake, Ev.isLoadOrWake]
  · intro hall
    have hnil : reg0.filter (fun c => decide (env.loadRes c = 0)) = [] := by
      rw [List.filter_eq_nil_iff]
      intro c hc
      simpa using hall c hc
    rw [if_pos hnil]
    refine ⟨rfl, ?_⟩
    intro e he
    simp only [List.mem_cons] at he
    rcases he with he | he
    · exact Or.inl he
    · exact Or.inr (loadCalls_isLoadOrUnload env reg0 e he)

/-- Witness for claim C9: a spawned command and two collectors whose `load()`
both fail. -/
theorem startup_handshake_witness :
    main envLoadFail cfgCommand [1, 2] 5 =
      ⟨Outcome.returned (-1), 10, 0,
        [Ev.fork, Ev.load 1 (-1), Ev.unload 1, Ev.load 2 (-1), Ev.unload 2]⟩ :=
  ((startup_handshake envLoadFail cfgCommand [1, 2] 5 (by decide) (by decide) (by decide)
    (by decide) (by decide)).2.2 (by decide)).1

/-! Theorems: the value of `attach()`. -/

/-- Claim C10, the code at the failing input: with the registry `[1, 2]`, a
budget of two windows and `attach()` of collector 1 returning -1 in window 0,
the loop still sleeps on collector 1, detaches and prints it in window 0, and
attaches it again in window 1; the registry of window 1 is the one of window 0. -/
theorem attach_failure_not_evicted :
    schedLoop envAttachFail 5 (-1) (-1) [1, 2] 3 10 0 =
      ⟨Outcome.returned 0, 0, 2,
        [Ev.attach 1 (-1), Ev.sleep 5, Ev.detach 1, Ev.render 1,
          Ev.attach 2 0, Ev.sleep 5, Ev.detach 2, Ev.render 2,
          Ev.attach 1 0, Ev.sleep 5, Ev.detach 1, Ev.render 1,
          Ev.attach 2 0, Ev.sleep 5, Ev.detach 2, Ev.render 2]⟩ := by
  decide

/-! Theorems: the liveness probe. -/

/-- A window makes no probe. -/
theorem window_filter_isProbe (env : Env) (k d : Nat) (reg : List Collector) :
    (window env k d reg).filter Ev.isProbe = [] := by
  induction reg with
  | nil => rfl
  | cons c cs ih => simp [window, ih, Ev.isProbe]

/-- The trigger block makes no probe. -/
theorem gate_filter_isProbe (env : Env) (fd : Int) (k : Nat) :
    (gate env fd k).2.filter Ev.isProbe = [] := by
  unfold gate
  split_ifs <;> simp [Ev.isProbe]

/-- The probes of `n` complete iterations: one per iteration for a target pid,
none for the value `-1`. -/
theorem windowsTrace_filter_isProbe (env : Env) (d : Nat) (tp fd : Int)
    (reg : List Collector) : ∀ (n k : Nat),
    (windowsTrace env d tp fd reg n k).filter Ev.isProbe =
      if tp < 0 then [] else List.replicate n (Ev.probe tp) := by
  intro n
  induction n with
  | zero => intro k; simp [windowsTrace]
  | succ n ih =>
    intro k
    by_cases htp : tp < 0
    · simp only [htp, if_true] at ih ⊢
      simp [windowsTrace, List.filter_append, ih, window_filter_isProbe,
        gate_filter_isProbe, probeCalls, htp]
    · simp only [htp, if_false] at ih ⊢
      simp [windowsTrace, List.filter_append, ih, window_filter_isProbe,
        gate_filter_isProbe, probeCalls, htp, Ev.isProbe, List.replicate_succ]

/-- Claim C11: every run of the scheduling loop is described exactly.  It
makes `windows` complete iterations, each entered with budget left, a target
pid that is negative or was just probed alive, and a trigger block that let
it through; its calls are those of these iterations, each beginning with the
loop test, followed by the calls of the test at which it stopped; and it
stops in one of four ways: the fuel of the model is used up (only then is it
still running), the budget is spent (no probe is made at that test), the
probe finds the target gone, or the trigger block makes `main` return.
Conversely, with fuel for `n + 1` loop tests, if `n` tests pass and the
budget is spent at the next one the loop returns after `n` windows, and if
`n` tests pass and the next probe finds the target gone (budget left) the
loop returns after `n` windows and that probe, with no further call.  With a
target pid (`target_pid >= 0`) every window was entered on a probe that found
the target alive, the loop makes no window at or after the first probe that
finds it gone, and the probes of the run are one per window plus the one at
which the loop stopped with budget left.  With `target_pid < 0` no probe is
made, the loop ends through its condition only when the budget is spent, and
without a trigger that is the only way it ends. -/
theorem target_liveness (env : Env) (d : Nat) (tp fd : Int) (reg : List Collector)
    (fuel : Nat) (rt : Int) (k : Nat) :
    (schedLoop env d tp fd reg fuel rt k).run_time =
      runTimeAfter d (schedLoop env d tp fd reg fuel rt k).windows rt ∧
    (∀ j, j < (schedLoop env d tp fd reg fuel rt k).windows →
      0 < runTimeAfter d j rt ∧ (tp < 0 ∨ env.alive (k + j) = true) ∧
        (gate env fd (k + j)).1 = false) ∧
    (((schedLoop env d tp fd reg fuel rt k).outcome = Outcome.running ∧
        (schedLoop env d tp fd reg fuel rt k).windows = fuel ∧
        (schedLoop env d tp fd reg fuel rt k).trace =
          windowsTrace env d tp fd reg (schedLoop env d tp fd reg fuel rt k).windows k) ∨
      ((schedLoop env d tp fd reg fuel rt k).outcome = Outcome.returned 0 ∧
        ¬ 0 < (schedLoop env d tp fd reg fuel rt k).run_time ∧
        (schedLoop env d tp fd reg fuel rt k).trace =
          windowsTrace env d tp fd reg (schedLoop env d tp fd reg fuel rt k).windows k) ∨
      ((schedLoop env d tp fd reg fuel rt k).outcome = Outcome.returned 0 ∧
        0 < (schedLoop env d tp fd reg fuel rt k).run_time ∧ ¬ tp < 0 ∧
        env.alive (k + (schedLoop env d tp fd reg fuel rt k).windows) = false ∧
        (schedLoop env d tp fd reg fuel rt k).trace =
          windowsTrace env d tp fd reg (schedLoop env d tp fd reg fuel rt k).windows k ++
            [Ev.probe tp]) ∨
      ((schedLoop env d tp fd reg fuel rt k).outcome = Outcome.returned (-1) ∧
        0 < (schedLoop env d tp fd reg fuel rt k).run_time ∧
        (tp < 0 ∨ env.alive (k + (schedLoop env d tp fd reg fuel rt k).windows) = true) ∧
        (gate env fd (k + (schedLoop env d tp fd reg fuel rt k).windows)).1 = true ∧
        (schedLoop env d tp fd reg fuel rt k).trace =
          windowsTrace env d tp fd reg (schedLoop env d tp fd reg fuel rt k).windows k ++
            (probeCalls tp ++
              (gate env fd (k + (schedLoop env d tp fd reg fuel rt k).windows)).2))) ∧
    (∀ n, n < fuel →
      (∀ i, i < n → 0 < runTimeAfter d i rt ∧ (tp < 0 ∨ env.alive (k + i) = true) ∧
        (gate env fd (k + i)).1 = false) →
      ¬ 0 < runTimeAfter d n rt →
      schedLoop env d tp fd reg fuel rt k =
        ⟨Outcome.returned 0, runTimeAfter d n rt, n, windowsTrace env d tp fd reg n k⟩) ∧
    (∀ n, n < fuel →
      (∀ i, i < n → 0 < runTimeAfter d i rt ∧ (tp < 0 ∨ env.alive (k + i) = true) ∧
        (gate env fd (k + i)).1 = false) →
      0 < runTimeAfter d n rt → ¬ tp < 0 → env.alive (k + n) = false →
      schedLoop env d tp fd reg fuel rt k =
        ⟨Outcome.returned 0, runTimeAfter d n rt, n,
          windowsTrace env d tp fd reg n k ++ [Ev.probe tp]⟩) ∧
    (¬ tp < 0 →
      (∀ j, j < (schedLoop env d tp fd reg fuel rt k).windows → env.alive (k + j) = true) ∧
      (∀ j, env.alive (k + j) = false → (schedLoop env d tp fd reg fuel rt k).windows ≤ j) ∧
      (schedLoop env d tp fd reg fuel rt k).trace.filter Ev.isProbe =
        List.replicate ((schedLoop env d tp fd reg fuel rt k).windows +
          (if (schedLoop env d tp fd reg fuel rt k).outcome ≠ Outcome.running ∧
              0 < (schedLoop env d tp fd reg fuel rt k).run_time then 1 else 0))
          (Ev.probe tp) ∧
      (env.alive (k + (schedLoop env d tp fd reg fuel rt k).windows) = false →
        0 < (schedLoop env d tp fd reg fuel rt k).run_time →
        (schedLoop env d tp fd reg fuel rt k).outcome ≠ Outcome.running →
        (schedLoop env d tp fd reg fuel rt k).outcome = Outcome.returned 0)) ∧
    (tp < 0 →
      (schedLoop env d tp fd reg fuel rt k).trace.filter Ev.isProbe = [] ∧
      ((schedLoop env d tp fd reg fuel rt k).outcome = Outcome.returned 0 →
        ¬ 0 < (schedLoop env d tp fd reg fuel rt k).run_time) ∧
      (fd < 0 → (schedLoop env d tp fd reg fuel rt k).outcome = Outcome.running ∨
        ((schedLoop env d tp fd reg fuel rt k).outcome = Outcome.returned 0 ∧
          ¬ 0 < (schedLoop env d tp fd reg fuel rt k).run_time))) := by
  obtain ⟨h1, h2, h3⟩ := schedLoop_char env d tp fd reg fuel rt k
  refine ⟨h1, h2, h3, ?_, ?_, ?_, ?_⟩
  · intro n hn hpass hspent
    obtain ⟨f, hf⟩ : ∃ f, fuel = f + 1 + n := ⟨fuel - 1 - n, by omega⟩
    rw [hf, schedLoop_iterations env d tp fd reg (f + 1) n rt k hpass,
      schedLoop_spent env d tp fd reg f _ (k + n) hspent]
    simp
  · intro n hn hpass hleft htp hdead
    obtain ⟨f, hf⟩ : ∃ f, fuel = f + 1 + n := ⟨fuel - 1 - n, by omega⟩
    rw [hf, schedLoop_iterations env d tp fd reg (f + 1) n rt k hpass,
      schedLoop_dead env d tp fd reg f _ (k + n) hleft htp hdead]
    simp
  · intro htp
    have halive : ∀ j, j < (schedLoop env d tp fd reg fuel rt k).windows →
        env.alive (k + j) = true := by
      intro j hj
      rcases (h2 j hj).2.1 with h | h
      · exact absurd h htp
      · exact h
    refine ⟨halive, ?_, ?_, ?_⟩
    · intro j hj
      by_contra hlt
      have := halive j (Nat.lt_of_not_le hlt)
      rw [hj] at this
      exact absurd this (by decide)
    · rcases h3 with h | h | h | h
      · rw [h.2.2, windowsTrace_filter_isProbe]
        simp [htp, h.1]
      · rw [h.2.2, windowsTrace_filter_isProbe]
        simp [htp, h.2.1]
      · rw [h.2.2.2.2, List.filter_append, windowsTrace_filter_isProbe]
        simp [htp, h.1, h.2.1, Ev.isProbe, List.replicate_succ']
      · rw [h.2.2.2.2, List.filter_append, windowsTrace_filter_isProbe]
        simp [htp, h.1, h.2.1, Ev.isProbe, List.replicate_succ', probeCalls,
          gate_filter_isProbe, List.filter_append]
    · intro hdead hrt hrun
      rcases h3 with h | h | h | h
      · exact absurd h.1 hrun
      · exact h.1
      · exact h.1
      · rcases h.2.2.1 with h' | h'
        · exact absurd h' htp
        · rw [hdead] at h'
          exact absurd h' (by decide)
  · intro htp
    refine ⟨?_, ?_, ?_⟩
    · rcases h3 with h | h | h | h
      · rw [h.2.2, windowsTrace_filter_isProbe]; simp [htp]
      · rw [h.2.2, windowsTrace_filter_isProbe]; simp [htp]
      · exact absurd htp h.2.2.1
      · rw [h.2.2.2.2, List.filter_append, windowsTrace_filter_isProbe]
        simp [htp, probeCalls, gate_filter_isProbe, List.filter_append]
    · intro hout
      rcases h3 with h | h | h | h
      · rw [hout] at h; exact absurd h.1 (by simp)
      · exact h.2.1
      · exact absurd htp h.2.2.1
      · rw [hout] at h; exact absurd h.1 (by simp)
    · intro hfd
      rcases h3 with h | h | h | h
      · exact Or.inl h.1
      · exact Or.inr ⟨h.1, h.2.1⟩
      · exact absurd htp h.2.2.1
      · have := gate_of_neg env fd (k + (schedLoop env d tp fd reg fuel rt k).windows) hfd
        rw [this] at h
        exact absurd h.2.2.2.1 (by simp)

/-- Witness for claim C11: the target, pid 100, is alive at the first loop
test and gone at the second one; the loop makes one window, probes again and
returns with 15 of the 20 seconds left. -/
theorem target_liveness_witness :
    schedLoop envTargetDies 5 100 (-1) [1] 5 20 0 =
      ⟨Outcome.returned 0, 15, 1,
        [Ev.probe 100, Ev.attach 1 0, Ev.sleep 5, Ev.detach 1, Ev.render 1, Ev.probe 100]⟩ :=
  ((target_liveness envTargetDies 5 100 (-1) [1] 5 20 0).2.2.2.2.1 1 (by decide)
    (by intro i hi; interval_cases i; decide) (by decide) (by decide) (by decide)).trans
    (by decide)

/-! Theorems: the readiness event and the first `attach`. -/

/-- The load loop makes no `attach` call. -/
theorem loadCalls_filter_isLoadOrAttach (env : Env) (cs : List Collector) :
    (loadCalls env cs).filter Ev.isLoadOrAttach =
      cs.map (fun c => Ev.load c (env.loadRes c)) := by
  induction cs with
  | nil => rfl
  | cons c cs ih =>
    by_cases hr : env.loadRes c = 0 <;> simp [loadCalls, hr, Ev.isLoadOrAttach, ih]

/-- Counterexample to claim C12 as stated: with a spawned command and one
collector, the readiness event is written right after the load loop, before
`atexit` and before the first `attach` of the first window. -/
theorem wake_before_first_attach :
    (main envOk cfgCommand [1] 3).trace =
      [Ev.fork, Ev.load 1 0, Ev.wakeChild, Ev.atexit,
        Ev.probe 100, Ev.attach 1 0, Ev.sleep 5, Ev.detach 1, Ev.render 1,
        Ev.probe 100, Ev.attach 1 0, Ev.sleep 5, Ev.detach 1, Ev.render 1,
        Ev.ignoreSigint, Ev.detach 1, Ev.unload 1, Ev.sigterm 100] ∧
    ((main envOk cfgCommand [1] 3).trace.takeWhile (fun e => e != Ev.wakeChild)).filter
      Ev.isAttach = [] := by
  rw [main_parent envOk cfgCommand [1] 3 (by decide) (by decide) (by decide) (by decide)
    (by decide)]
  decide

/-- Claim C12, amended: in spawned-command mode, when a collector loads, the
readiness event is written once, after `load()` has been called on every
collector of the initial registry and before any `attach()`: the calls before
it are `fork` and those of the load loop, none of them an `attach`, and every
`attach` of the run is made after it, by the scheduling part. -/
theorem wake_after_load_before_attach (env : Env) (cfg : MainConfig)
    (reg0 : List Collector) (fuel : Nat) (hreg : reg0 ≠ []) (hev : 0 ≤ env.eventfd)
    (hcmd : cfg.command.length ≠ 0) (hp1 : env.forkRes ≠ -1) (hp0 : env.forkRes ≠ 0)
    (hsurv : reg0.filter (fun c => decide (env.loadRes c = 0)) ≠ []) :
    (main env cfg reg0 fuel).trace =
      (Ev.fork :: loadCalls env reg0) ++ Ev.wakeChild ::
        (schedule env { cfg with target_pid := env.forkRes }
          (reg0.filter (fun c => decide (env.loadRes c = 0))) fuel).trace ∧
    (Ev.fork :: loadCalls env reg0).filter Ev.isLoadOrAttach =
      reg0.map (fun c => Ev.load c (env.loadRes c)) ∧
    (schedule env { cfg with target_pid := env.forkRes }
      (reg0.filter (fun c => decide (env.loadRes c = 0))) fuel).trace.filter
        Ev.isLoadOrWake = [] ∧
    (main env cfg reg0 fuel).trace.filter Ev.isAttach =
      (schedule env { cfg with target_pid := env.forkRes }
        (reg0.filter (fun c => decide (env.loadRes c = 0))) fuel).trace.filter Ev.isAttach := by
  rw [main_parent env cfg reg0 fuel hreg hev hcmd hp1 hp0, if_neg hsurv]
  have hla : (loadCalls env reg0).filter Ev.isAttach = [] := by
    induction reg0 with
    | nil => rfl
    | cons c cs ih =>
      have ih' : (loadCalls env cs).filter Ev.isAttach = [] := by
        clear ih hreg hsurv
        induction cs with
        | nil => rfl
        | cons a as iha =>
          by_cases hr : env.loadRes a = 0 <;> simp [loadCalls, hr, Ev.isAttach, iha]
      by_cases hr : env.loadRes c = 0 <;> simp [loadCalls, hr, Ev.isAttach, ih']
  refine ⟨by simp, ?_, schedule_filter_isLoadOrWake _ _ _ _, ?_⟩
  · simp [List.filter_cons, Ev.isLoadOrAttach, loadCalls_filter_isLoadOrAttach]
  · simp [List.filter_cons, List.filter_append, Ev.isAttach, hla]

/-- Witness for claim C12: a spawned command and one collector that loads. -/
theorem wake_after_load_before_attach_witness :
    (main envOk cfgCommand [1] 3).trace.filter Ev.isAttach =
      (schedule envOk { cfgCommand with target_pid := envOk.forkRes }
        ([1].filter (fun c => decide (envOk.loadRes c = 0))) 3).trace.filter Ev.isAttach :=
  (wake_after_load_before_attach envOk cfgCommand [1] 3 (by decide) (by decide) (by decide)
    (by decide) (by decide) (by decide)).2.2.2

/-! Theorems: what releases the trigger gate. -/

/-- Counterexample to claim C13 as stated: the control path reports only
`POLLHUP`, neither `POLLPRI` nor `POLLERR`, and the window still runs: the
collector is attached right after the `poll`. -/
theorem window_without_pollpri :
    (envPollHup.pollRes 0).2 &&& POLLPRI = 0 ∧
    (envPollHup.pollRes 0).2 &&& POLLERR = 0 ∧
    schedLoop envPollHup 5 (-1) 4 [1] 2 5 0 =
      ⟨Outcome.returned 0, 0, 1,
        [Ev.poll, Ev.attach 1 0, Ev.sleep 5, Ev.detach 1, Ev.render 1]⟩ := by
  decide

/-- A window makes no `poll` call. -/
theorem window_count_poll (env : Env) (k d : Nat) (reg : List Collector) :
    (window env k d reg).count Ev.poll = 0 := by
  induction reg with
  | nil => rfl
  | cons c cs ih => simp [window, ih]

/-- Without a trigger descriptor complete iterations make no `poll` call. -/
theorem windowsTrace_count_poll (env : Env) (d : Nat) (tp fd : Int) (reg : List Collector)
    (hfd : fd < 0) : ∀ (n k : Nat), (windowsTrace env d tp fd reg n k).count Ev.poll = 0 := by
  intro n
  induction n with
  | zero => intro k; rfl
  | succ n ih =>
    intro k
    have hp : (probeCalls tp).count Ev.poll = 0 := by
      unfold probeCalls
      split_ifs <;> simp
    simp [windowsTrace, List.count_append, ih, window_count_poll, gate_of_neg env fd k hfd, hp]

/-- Without a trigger descriptor the scheduling loop makes no `poll` call. -/
theorem schedLoop_count_poll (env : Env) (d : Nat) (tp fd : Int) (reg : List Collector)
    (fuel : Nat) (rt : Int) (k : Nat) (hfd : fd < 0) :
    (schedLoop env d tp fd reg fuel rt k).trace.count Ev.poll = 0 := by
  obtain ⟨-, -, h⟩ := schedLoop_char env d tp fd reg fuel rt k
  rcases h with h | h | h | h
  · rw [h.2.2, windowsTrace_count_poll env d tp fd reg hfd]
  · rw [h.2.2, windowsTrace_count_poll env d tp fd reg hfd]
  · rw [h.2.2.2.2]
    simp [List.count_append, windowsTrace_count_poll env d tp fd reg hfd]
  · have := gate_of_neg env fd (k + (schedLoop env d tp fd reg fuel rt k).windows) hfd
    rw [this] at h
    exact absurd h.2.2.2.1 (by simp)

/-- The exit hook makes no `poll` call. -/
theorem endCollect_count_poll (cfg : MainConfig) (reg : List Collector) :
    (endCollect cfg reg).count Ev.poll = 0 := by
  have hitems : ∀ rs : List Collector, (endCollectItems cfg.run_time rs).count Ev.poll = 0 := by
    intro rs
    induction rs with
    | nil => rfl
    | cons c cs ih =>
      by_cases h : cfg.run_time > 0 <;> simp [endCollectItems, ih, h]
  by_cases hc : cfg.command.length = 0 <;>
    simp [endCollect, List.count_cons, List.count_append, hitems, hc]

/-- Claim C13, amended: with a trigger descriptor, a window entered with
budget left and a live target starts (its collectors are attached) exactly
when `poll` returned a non-negative value without `POLLERR`; the flag
`POLLPRI` only decides whether the message is printed, and the calls of the
window follow the `poll` in either case.  When no trigger is configured
`poll` is never called. -/
theorem gate_releases_unless_error (env : Env) (d : Nat) (tp fd : Int)
    (reg : List Collector) (fuel : Nat) (rt : Int) (k : Nat) (hfd : 0 ≤ fd) (hrt : 0 < rt)
    (hlive : tp < 0 ∨ env.alive k = true) :
    ((gate env fd k).1 = false ↔
      (0 ≤ (env.pollRes k).1 ∧ (env.pollRes k).2 &&& POLLERR = 0)) ∧
    ((0 ≤ (env.pollRes k).1 ∧ (env.pollRes k).2 &&& POLLERR = 0) →
      (schedLoop env d tp fd reg (fuel + 1) rt k).windows =
        (schedLoop env d tp fd reg fuel (subDelay rt d) (k + 1)).windows + 1 ∧
      (schedLoop env d tp fd reg (fuel + 1) rt k).trace =
        probeCalls tp ++ Ev.poll ::
          (if (env.pollRes k).2 &&& POLLPRI ≠ 0 then [Ev.triggered] else []) ++
          window env k d reg ++
          (schedLoop env d tp fd reg fuel (subDelay rt d) (k + 1)).trace) ∧
    (¬ (0 ≤ (env.pollRes k).1 ∧ (env.pollRes k).2 &&& POLLERR = 0) →
      schedLoop env d tp fd reg (fuel + 1) rt k =
        ⟨Outcome.returned (-1), rt, 0, probeCalls tp ++ [Ev.poll]⟩) ∧
    (∀ cfg : MainConfig, cfg.trigger = "" ∨ cfg.trig_event = "" →
      (schedule env cfg reg fuel).trace.count Ev.poll = 0) := by
  have hg : (gate env fd k).1 = false ↔
      (0 ≤ (env.pollRes k).1 ∧ (env.pollRes k).2 &&& POLLERR = 0) := by
    unfold gate
    simp only [ge_iff_le, hfd, if_true]
    split_ifs with h1 h2 h3
    · simp [not_le.mpr h1]
    · simp [h2]
    · simp only [true_iff]
      exact ⟨not_lt.mp h1, by simpa using h2⟩
    · simp only [true_iff]
      exact ⟨not_lt.mp h1, by simpa using h2⟩
  refine ⟨hg, ?_, ?_, ?_⟩
  · intro hok
    have hpass := hg.mpr hok
    have h2 : (gate env fd k).2 =
        Ev.poll :: (if (env.pollRes k).2 &&& POLLPRI ≠ 0 then [Ev.triggered] else []) := by
      unfold gate
      simp only [ge_iff_le, hfd, if_true, not_lt.mpr hok.1, if_false, hok.2, ne_eq,
        not_true_eq_false]
      split_ifs <;> rfl
    rw [schedLoop_step env d tp fd reg fuel rt k hrt hlive hpass, h2]
    simp
  · intro herr
    have hfail : (gate env fd k).1 = true := by
      cases hb : (gate env fd k).1 with
      | true => rfl
      | false => exact absurd (hg.mp hb) herr
    have hcalls : (gate env fd k).2 = [Ev.poll] := by
      by_cases h1 : (env.pollRes k).1 < 0
      · rw [gate_error env fd k hfd (Or.inl h1)]
      · have h2 : (env.pollRes k).2 &&& POLLERR ≠ 0 := by
          intro h
          exact herr ⟨not_lt.mp h1, h⟩
        rw [gate_error env fd k hfd (Or.inr h2)]
    rw [schedLoop_gate_fail env d tp fd reg fuel rt k hrt hlive hfail, hcalls]
  · intro cfg hno
    unfold schedule
    rw [armTrigger_absent env cfg hno]
    simp only
    have hl := schedLoop_count_poll env cfg.delay cfg.target_pid (-1) reg fuel cfg.run_time 0
      (by decide)
    cases hro : (schedLoop env cfg.delay cfg.target_pid (-1) reg fuel cfg.run_time 0).outcome <;>
      simp [List.count_cons, List.count_append, hl, endCollect_count_poll]

/-- Witness for claim C13: a trigger descriptor whose poll reports only
`POLLHUP`; the window runs. -/
theorem gate_releases_unless_error_witness :
    (schedLoop envPollHup 5 (-1) 4 [1] (0 + 1) 5 0).trace =
      probeCalls (-1) ++ Ev.poll ::
        (if (envPollHup.pollRes 0).2 &&& POLLPRI ≠ 0 then [Ev.triggered] else []) ++
        window envPollHup 0 5 [1] ++
        (schedLoop envPollHup 5 (-1) 4 [1] 0 (subDelay 5 5) (0 + 1)).trace :=
  ((gate_releases_unless_error envPollHup 5 (-1) 4 [1] 0 5 0 (by decide) (by decide)
    (Or.inl (by decide))).2.1 (by decide)).2

/-! Theorems: the budget countdown. -/

/-- The number of windows for a positive budget: `ceil(r / d)` is
`(r - 1) / d + 1`. -/
theorem ceil_div_pos (r d : Nat) (hr : 0 < r) (hd : 0 < d) :
    (r + d - 1) / d = (r - 1) / d + 1 := by
  have h : r + d - 1 = (r - 1) + d := by omega
  rw [h, Nat.add_div_right _ hd]

/-- One window less is needed after one window when the budget exceeds the
window length. -/
theorem ceil_div_step (r d : Nat) (hd : 0 < d) (hlt : d < r) :
    (r + d - 1) / d = (r - d + d - 1) / d + 1 := by
  have h : r + d - 1 = (r - d + d - 1) + d := by omega
  rw [h, Nat.add_div_right _ hd]

/-- The countdown of a positive budget `r` with window length `d`, no trigger
and no target pid: `ceil(r / d)` windows, then the loop ends. -/
theorem schedLoop_countdown (env : Env) (d : Nat) (tp fd : Int) (reg : List Collector)
    (hd : 0 < d) (htp : tp < 0) (hfd : fd < 0) : ∀ (n r : Nat), r ≤ n → 0 < r →
    r < 2147483648 → d ≤ r + 2147483648 → ∀ (fuel k : Nat),
    schedLoop env d tp fd reg (fuel + 1 + (r + d - 1) / d) (r : Int) k =
      ⟨Outcome.returned 0, (r : Int) - (((r + d - 1) / d : Nat) : Int) * (d : Int),
        (r + d - 1) / d, windowsTrace env d tp fd reg ((r + d - 1) / d) k⟩ := by
  intro n
  induction n with
  | zero => intro r hle hr; omega
  | succ n ih =>
    intro r hle hr hr31 hdr fuel k
    have hgate : (gate env fd k).1 = false := by rw [gate_of_neg env fd k hfd]
    have hsub : subDelay (r : Int) d = (r : Int) - (d : Int) :=
      subDelay_eq (r : Int) d (by omega) (by omega) (by omega)
    by_cases hlt : d < r
    · have hstep := ceil_div_step r d hd hlt
      have hih := ih (r - d) (by omega) (by omega) (by omega) (by omega) fuel (k + 1)
      have hcast : ((r - d : Nat) : Int) = (r : Int) - (d : Int) := by omega
      rw [hstep, show fuel + 1 + ((r - d + d - 1) / d + 1) =
        (fuel + 1 + (r - d + d - 1) / d) + 1 from rfl,
        schedLoop_step env d tp fd reg _ (r : Int) k (by omega) (Or.inl htp) hgate,
        hsub, ← hcast, hih]
      simp only [windowsTrace, Run.mk.injEq, true_and, and_true]
      push_cast
      rw [hcast]
      ring
    · have hone : (r + d - 1) / d = 1 := by
        rw [ceil_div_pos r d hr hd, Nat.div_eq_of_lt (by omega)]
      rw [hone, show fuel + 1 + 1 = (fuel + 1) + 1 from rfl,
        schedLoop_step env d tp fd reg _ (r : Int) k (by omega) (Or.inl htp) hgate,
        hsub, schedLoop_spent env d tp fd reg fuel _ (k + 1) (by omega)]
      simp [windowsTrace]

/-- The update applied after `n` earlier updates. -/
theorem runTimeAfter_succ (d : Nat) : ∀ (n : Nat) (rt : Int),
    runTimeAfter d (n + 1) rt = subDelay (runTimeAfter d n rt) d := by
  intro n
  induction n with
  | zero => intro rt; rfl
  | succ n ih =>
    intro rt
    have := ih (subDelay rt d)
    simpa [runTimeAfter] using this

/-- During the countdown every update subtracts exactly `d`. -/
theorem runTimeAfter_countdown (d r : Nat) (hr : 0 < r) (hr31 : r < 2147483648)
    (hd : 0 < d) (hdr : d ≤ r + 2147483648) : ∀ j : Nat, j ≤ (r + d - 1) / d →
    runTimeAfter d j (r : Int) = (r : Int) - (j : Int) * (d : Int) := by
  intro j
  induction j with
  | zero => intro _; simp [runTimeAfter]
  | succ j ih =>
    intro hj
    have hjd : j * d ≤ r - 1 := by
      have h1 : j ≤ (r - 1) / d := by
        rw [ceil_div_pos r d hr hd] at hj
        omega
      exact (Nat.le_div_iff_mul_le hd).mp h1
    have hjd' : (j : Int) * (d : Int) ≤ (r : Int) - 1 := by
      have : ((j * d : Nat) : Int) ≤ ((r - 1 : Nat) : Int) := by exact_mod_cast hjd
      push_cast at this
      omega
    have hdj : j = 0 ∨ (d : Int) ≤ (j : Int) * (d : Int) := by
      rcases Nat.eq_zero_or_pos j with h | h
      · exact Or.inl h
      · right
        have : d ≤ j * d := Nat.le_mul_of_pos_left d h
        exact_mod_cast this
    rw [runTimeAfter_succ, ih (by omega)]
    have hnn : (0 : Int) ≤ (j : Int) * (d : Int) := by positivity
    rw [subDelay_eq _ _ (by omega) (by omega) (by
      rcases hdj with h | h
      · subst h; simp; omega
      · omega)]
    push_cast
    ring

/-- The countdown where the conversion is exact: for `0 < r < 2^31` and
`0 < d <= r + 2^31` every update subtracts exactly `d`, and with no trigger
and no target pid the loop ends after exactly `ceil(r / d)` windows with no
budget left. -/
theorem countdown_in_range (env : Env) (reg : List Collector) (d r : Nat) (tp fd : Int)
    (fuel k : Nat) (hr : 0 < r) (hr31 : r < 2147483648) (hd : 0 < d)
    (hdr : d ≤ r + 2147483648) (htp : tp < 0) (hfd : fd < 0) :
    subDelay (r : Int) d = (r : Int) - (d : Int) ∧
    subDelay (r : Int) d < (r : Int) ∧
    (∀ j : Nat, j ≤ (r + d - 1) / d →
      runTimeAfter d j (r : Int) = (r : Int) - (j : Int) * (d : Int)) ∧
    schedLoop env d tp fd reg (fuel + 1 + (r + d - 1) / d) (r : Int) k =
      ⟨Outcome.returned 0, (r : Int) - (((r + d - 1) / d : Nat) : Int) * (d : Int),
        (r + d - 1) / d, windowsTrace env d tp fd reg ((r + d - 1) / d) k⟩ ∧
    (r : Int) - (((r + d - 1) / d : Nat) : Int) * (d : Int) ≤ 0 := by
  have hsub : subDelay (r : Int) d = (r : Int) - (d : Int) :=
    subDelay_eq (r : Int) d (by omega) (by omega) (by omega)
  refine ⟨hsub, by rw [hsub]; omega, runTimeAfter_countdown d r hr hr31 hd hdr,
    schedLoop_countdown env d tp fd reg hd htp hfd r r (le_refl r) hr hr31 hdr fuel k, ?_⟩
  have h1 : r - 1 < d * ((r - 1) / d + 1) := Nat.lt_mul_div_succ (r - 1) hd
  rw [ceil_div_pos r d hr hd]
  have h2 : ((r - 1 : Nat) : Int) < ((d * ((r - 1) / d + 1) : Nat) : Int) := by
    exact_mod_cast h1
  push_cast at h2 ⊢
  have h3 : ((r - 1 : Nat) : Int) = (r : Int) - 1 := by omega
  rw [h3] at h2
  nlinarith [h2]

/-- The update `run_time -= delay` when the conversion wraps: for
`0 < r < 2^31` and `r + 2^31 < d < 2^32` it yields `r - d + 2^32`. -/
theorem subDelay_wraps (r d : Nat) (hr : 0 < r) (hr31 : r < 2147483648)
    (hd : r + 2147483648 < d) (hd32 : d < 4294967296) :
    subDelay (r : Int) d = (r : Int) - (d : Int) + 4294967296 := by
  unfold subDelay toSigned toUnsigned
  split <;> omega

/-- The loop with `delay = 4294967295`, no trigger and no target pid: as long
as `run_time` stays below `2^31` every window adds 1 to it and the loop goes
on. -/
theorem schedLoop_wrapping (env : Env) (tp fd : Int) (reg : List Collector) (htp : tp < 0)
    (hfd : fd < 0) : ∀ (n : Nat) (rt : Int) (k : Nat), 0 < rt → rt + n < 2147483648 →
    (schedLoop env 4294967295 tp fd reg n rt k).outcome = Outcome.running ∧
    (schedLoop env 4294967295 tp fd reg n rt k).windows = n ∧
    (schedLoop env 4294967295 tp fd reg n rt k).run_time = rt + n := by
  intro n
  induction n with
  | zero => intro rt k _ _; simp [schedLoop]
  | succ n ih =>
    intro rt k hrt hlt
    have hsub : subDelay rt 4294967295 = rt + 1 := by
      unfold subDelay toSigned toUnsigned
      split <;> omega
    have hgate : (gate env fd k).1 = false := by rw [gate_of_neg env fd k hfd]
    rw [schedLoop_step env 4294967295 tp fd reg n rt k hrt (Or.inl htp) hgate, hsub]
    obtain ⟨h1, h2, h3⟩ := ih (rt + 1) (k + 1) (by omega) (by push_cast at hlt ⊢; omega)
    refine ⟨h1, by simp [h2], ?_⟩
    simp only [h3]
    push_cast
    ring

/-- Claim C14, the code in general and at the failing input: for
`0 < run_time < 2^31` and `0 < delay <= run_time + 2^31` the update
`run_time -= delay` subtracts exactly `delay` and, with no trigger and no
target pid, the loop ends after exactly `ceil(run_time / delay)` windows, as
claimed; for a larger `delay` (below `2^32`) the conversion between `int` and
`unsigned` wraps and the update leaves `run_time` larger than before.  With
`run_time = 1` and `delay = 4294967295` the update yields 2, and the loop,
which should end after one window, is still running after `n` windows with
`run_time = 1 + n`, for every `n` below `2^31 - 1`. -/
theorem countdown_can_grow (env : Env) (reg : List Collector) (d r fuel k n : Nat) :
    (0 < r → r < 2147483648 → 0 < d → d ≤ r + 2147483648 →
      subDelay (r : Int) d = (r : Int) - (d : Int) ∧
      schedLoop env d (-1) (-1) reg (fuel + 1 + (r + d - 1) / d) (r : Int) k =
        ⟨Outcome.returned 0, (r : Int) - (((r + d - 1) / d : Nat) : Int) * (d : Int),
          (r + d - 1) / d, windowsTrace env d (-1) (-1) reg ((r + d - 1) / d) k⟩ ∧
      (r : Int) - (((r + d - 1) / d : Nat) : Int) * (d : Int) ≤ 0) ∧
    (0 < r → r < 2147483648 → r + 2147483648 < d → d < 4294967296 →
      subDelay (r : Int) d = (r : Int) - (d : Int) + 4294967296 ∧
      (r : Int) < subDelay (r : Int) d) ∧
    subDelay 1 4294967295 = 2 ∧
    (1 + 4294967295 - 1) / 4294967295 = 1 ∧
    (n + 1 < 2147483648 →
      (schedLoop env 4294967295 (-1) (-1) reg n 1 k).outcome = Outcome.running ∧
      (schedLoop env 4294967295 (-1) (-1) reg n 1 k).windows = n ∧
      (schedLoop env 4294967295 (-1) (-1) reg n 1 k).run_time = 1 + n) ∧
    schedLoop envOk 4294967295 (-1) (-1) [1] 2 1 0 =
      ⟨Outcome.running, 3, 2,
        [Ev.attach 1 0, Ev.sleep 4294967295, Ev.detach 1, Ev.render 1,
          Ev.attach 1 0, Ev.sleep 4294967295, Ev.detach 1, Ev.render 1]⟩ := by
  refine ⟨?_, ?_, by decide, by decide, ?_, by decide⟩
  · intro hr hr31 hd hdr
    have h := countdown_in_range env reg d r (-1) (-1) fuel k hr hr31 hd hdr (by decide)
      (by decide)
    exact ⟨h.1, h.2.2.2.1, h.2.2.2.2⟩
  · intro hr hr31 hd hd32
    have h := subDelay_wraps r d hr hr31 hd hd32
    refine ⟨h, ?_⟩
    rw [h]
    omega
  · intro hn
    have h := schedLoop_wrapping env (-1) (-1) reg (by decide) (by decide) n 1 k (by decide)
      (by omega)
    exact ⟨h.1, h.2.1, by rw [h.2.2]⟩

end StackAnalyser

namespace IonMonitor

/-! Theorems: the histogram bucket. -/

/-- The bucket key is at most 5. -/
theorem bucketKey_le (now ts : Nat) : bucketKey now ts ≤ 5 := by
  unfold bucketKey INTERVAL_MAX
  simp only
  split <;> omega

/-- Claim C15, the code at the failing input and in general: when the pid has
no entry in `time_map`, `bpf_prog2` returns -1 and changes nothing; otherwise
it returns 0, removes that entry only, and adds one (in `u64`) to the count
at the key `bucketKey now ts`, which is at most 5, leaving the other counts
unchanged.  That key is `min((now - ts) / 10000000, 5)` as long as the
quotient is below `2^32`; the quotient is converted to `unsigned` before the
clamp, so for `ts = 0` and `now = 42949672960000000` (an elapsed time of
`2^32` intervals of 10 ms) the key is 0 and not 5. -/
theorem bucket_truncated_before_clamp (pid now : Nat) (s : Maps) :
    (s.time_map pid = none → (bpf_prog2 pid now s).1 = -1 ∧
      (bpf_prog2 pid now s).2.count_map = s.count_map ∧
      (bpf_prog2 pid now s).2.time_map = s.time_map) ∧
    (∀ ts, s.time_map pid = some ts →
      (bpf_prog2 pid now s).1 = 0 ∧
      (bpf_prog2 pid now s).2.time_map pid = none ∧
      (∀ p, p ≠ pid → (bpf_prog2 pid now s).2.time_map p = s.time_map p) ∧
      (bpf_prog2 pid now s).2.count_map (bucketKey now ts) =
        some (bumped s.count_map (bucketKey now ts)) ∧
      (∀ k, k ≠ bucketKey now ts → (bpf_prog2 pid now s).2.count_map k = s.count_map k) ∧
      bucketKey now ts ≤ 5) ∧
    (∀ ts, ts ≤ now → now < 18446744073709551616 → (now - ts) / 10000000 < 4294967296 →
      bucketKey now ts = min ((now - ts) / 10000000) 5) ∧
    bucketKey 42949672960000000 0 = 0 ∧
    min ((42949672960000000 - 0) / 10000000) 5 = 5 ∧
    (bpf_prog2 7 42949672960000000
      { count_map := fun _ => none, time_map := fun p => if p = 7 then some 0 else none }
      ).2.count_map 0 = some 1 ∧
    (bpf_prog2 7 42949672960000000
      { count_map := fun _ => none, time_map := fun p => if p = 7 then some 0 else none }
      ).2.count_map 5 = none := by
  refine ⟨?_, ?_, ?_, by decide, by decide, by decide, by decide⟩
  · intro h
    simp [bpf_prog2, h]
  · intro ts h
    refine ⟨by simp [bpf_prog2, h], by simp [bpf_prog2, h], ?_, by simp [bpf_prog2, h], ?_,
      bucketKey_le now ts⟩
    · intro p hp
      simp [bpf_prog2, h, hp]
    · intro k hk
      simp [bpf_prog2, h, hk]
  · intro ts hle hnow hq
    have htm : (now + (18446744073709551616 - ts % 18446744073709551616)) %
        18446744073709551616 = now - ts := by
      omega
    unfold bucketKey INTERVAL_MAX
    simp only [htm, Nat.mod_eq_of_lt hq]
    split <;> omega

end IonMonitor
